import Mathlib

/-! Verification of the MareaCast tide application.

The tide-curve synthesis engine (timeToDecimal, getTideHeightAtTime,
generateTideCurve, calculateCurrentHeight) is embedded from the
utils/tideMath module; the source-resolution pipeline (geocodeLocation,
findNearestSpanishPort, calculateApproximateTides, fetchTideData) from
services/tideApiService.ts.

Conventions of the embedding:
* JS numbers are idealized as exact rationals wherever the source only
  performs field arithmetic and comparisons, and as real numbers where
  Math.cos / Math.sin / Math.sqrt enter.
* An "HH:MM" time string is represented by its two numeric fields (the
  source converts it with timeToDecimal before any arithmetic, and its
  sort comparators on zero-padded time strings agree with the
  lexicographic order on the field pair).
* The source never throws in getTideHeightAtTime; the one non-finite
  result it could produce (a NaN from the zero-length-interval division
  when duration is 0) is modeled by Option.none, and every ordinary
  number by Option.some.
* Number.prototype.toFixed(2) re-read by Number(), and Math.round, both
  round half toward positive infinity (ECMA picks the larger candidate
  at a tie); both are modeled with Int.floor of (x + 1/2).
* External I/O (the geocoding service, the sun-times service, the three
  tide-data providers, the local cache) is modeled by an environment
  record carrying the delivered outcome of each call; a provider outcome
  of none stands for a network error, a timeout or a null result, and
  some l for a parsed event list l. -/

namespace MareaCast

/-- HIGH or LOW tide event kind, the type field of a TideEvent. -/
inductive TideType where
  | HIGH
  | LOW
deriving DecidableEq

/-- The two numeric fields of an "HH:MM" time string. -/
structure HM where
  hours : ℤ
  minutes : ℤ
deriving DecidableEq

/-- One tide event: time, height in meters, and kind. -/
structure TideEvent where
  time : HM
  height : ℚ
  type : TideType
deriving DecidableEq

/-- timeToDecimal from utils/tideMath: h + m / 60 for a time "HH:MM". -/
def timeToDecimal (t : HM) : ℚ :=
  t.hours + t.minutes / 60

/-- Number(x.toFixed(2)): rounding to hundredths, half toward +infinity. -/
noncomputable def jsToFixed2 (x : ℝ) : ℝ :=
  ((⌊x * 100 + 1 / 2⌋ : ℤ) : ℝ) / 100

/-- Math.round on an exact rational input. -/
def jsRound (x : ℚ) : ℤ :=
  ⌊x + 1 / 2⌋

/-- Math.round on a real input. -/
noncomputable def jsRoundR (x : ℝ) : ℤ :=
  ⌊x + 1 / 2⌋

/-- Math.round(x * 100) / 100 as an exact rational. -/
noncomputable def round2Q (x : ℝ) : ℚ :=
  ((⌊x * 100 + 1 / 2⌋ : ℤ) : ℚ) / 100

/-- Comparator key order used by tideMath: sort((a, b) => timeToDecimal(a.time) - timeToDecimal(b.time)). -/
def decLe (a b : TideEvent) : Prop :=
  timeToDecimal a.time ≤ timeToDecimal b.time

instance : DecidableRel decLe :=
  fun a b => inferInstanceAs (Decidable (timeToDecimal a.time ≤ timeToDecimal b.time))

instance : IsTotal TideEvent decLe :=
  ⟨fun a b => le_total (timeToDecimal a.time) (timeToDecimal b.time)⟩

instance : IsTrans TideEvent decLe :=
  ⟨fun _ _ _ hab hbc => le_trans hab hbc⟩

/-- The stable comparison sort of [...tides].sort by decimal time. -/
def sortByDec (l : List TideEvent) : List TideEvent :=
  l.insertionSort decLe

/-- Placeholder event used only to discharge out-of-range list reads; every
read in the development is proved to be in range. -/
def dummyEvent : TideEvent :=
  ⟨⟨0, 0⟩, 0, TideType.HIGH⟩

/-- Cosine interpolation y = (h1+h2)/2 + (h1-h2)/2 * cos(pi * (t-t1) / (t2-t1)). -/
noncomputable def cosInterp (t1 h1 t2 h2 t : ℚ) : ℝ :=
  ((h1 : ℝ) + (h2 : ℝ)) / 2 +
    ((h1 : ℝ) - (h2 : ℝ)) / 2 * Real.cos (Real.pi * ((t : ℝ) - (t1 : ℝ)) / ((t2 : ℝ) - (t1 : ℝ)))

/-- The heuristic virtual-neighbor height of a boundary event: minus the
fixed 2.5 m amplitude floored at 0 for a HIGH, plus 2.5 m for a LOW. -/
def virtualHeight (e : TideEvent) : ℚ :=
  if e.type = TideType.HIGH then max 0 (e.height - 5 / 2) else e.height + 5 / 2

/-- The loop condition of the bounding-segment scan at index i. -/
def segCond (t : ℚ) (s : List TideEvent) (i : ℕ) : Bool :=
  decide (timeToDecimal (s.getD i dummyEvent).time ≤ t ∧
    t ≤ timeToDecimal (s.getD (i + 1) dummyEvent).time)

/-- The bounding-segment scan: the first index i with
time(s[i]) <= t <= time(s[i+1]), defaulting to 0 as in the source. -/
def segIdx (t : ℚ) (s : List TideEvent) : ℕ :=
  (((List.range (s.length - 1)).find? (segCond t s)).getD 0)

/-- The four bounds (t1, h1, t2, h2) selected by getTideHeightAtTime. -/
structure Bounds where
  t1 : ℚ
  h1 : ℚ
  t2 : ℚ
  h2 : ℚ

/-- Bound selection of getTideHeightAtTime on the sorted event list:
virtual neighbor 6.21 h before the first event, virtual neighbor 6.21 h
after the last event, or the scanned interior segment. -/
def selectBounds (timeDecimal : ℚ) (s : List TideEvent) : Bounds :=
  let first := s.headD dummyEvent
  let last := s.getLastD dummyEvent
  if timeDecimal ≤ timeToDecimal first.time then
    ⟨timeToDecimal first.time - 621 / 100, virtualHeight first,
      timeToDecimal first.time, first.height⟩
  else if timeToDecimal last.time ≤ timeDecimal then
    ⟨timeToDecimal last.time, last.height,
      timeToDecimal last.time + 621 / 100, virtualHeight last⟩
  else
    let idx := segIdx timeDecimal s
    ⟨timeToDecimal (s.getD idx dummyEvent).time, (s.getD idx dummyEvent).height,
      timeToDecimal (s.getD (idx + 1) dummyEvent).time, (s.getD (idx + 1) dummyEvent).height⟩

/-- getTideHeightAtTime from utils/tideMath. Returns some 0 for an empty
list; otherwise sorts, selects bounds, and returns the rounded cosine
interpolation; none models the NaN a zero-length duration would yield. -/
noncomputable def getTideHeightAtTime (timeDecimal : ℚ) (tides : List TideEvent) : Option ℝ :=
  if tides.length = 0 then some 0
  else
    let s := sortByDec tides
    let b := selectBounds timeDecimal s
    if b.t2 - b.t1 = 0 then none
    else some (jsToFixed2 (cosInterp b.t1 b.h1 b.t2 b.h2 timeDecimal))

/-- One sampled point of the display curve. -/
structure CurvePoint where
  time : ℚ
  height : Option ℝ

/-- generateTideCurve from utils/tideMath: empty for fewer than 2 events,
else one point per 15 minutes over 0..24 inclusive; the JS loop
for (t = 0; t <= 24; t += 0.25) visits exactly k/4 for k = 0..96 since
0.25 is binary exact. -/
noncomputable def generateTideCurve (tides : List TideEvent) : List CurvePoint :=
  if tides.length < 2 then []
  else (List.range 97).map
    (fun n : ℕ => ⟨(n : ℚ) / 4, getTideHeightAtTime ((n : ℚ) / 4) tides⟩)

/-- The fields of a JS Date that the service reads. -/
structure DateModel where
  epochMs : ℤ
  hours : ℕ
  minutes : ℕ

/-- calculateCurrentHeight from utils/tideMath: sample now and now + 0.02 h,
rising iff the forward sample is strictly greater (false under NaN, as in
JS where any comparison with NaN is false). -/
noncomputable def calculateCurrentHeight (now : DateModel) (tides : List TideEvent) :
    Option ℝ × Prop :=
  let currentDecimal : ℚ := (now.hours : ℚ) + (now.minutes : ℚ) / 60
  let hNow := getTideHeightAtTime currentDecimal tides
  let hNext := getTideHeightAtTime (currentDecimal + 2 / 100) tides
  (hNow,
    match hNow, hNext with
    | some a, some b => a < b
    | _, _ => False)

/-! The source-resolution pipeline of services/tideApiService.ts. -/

/-- JS whitespace class as used by the service (trim and the regex class). -/
def jsIsSpace (c : Char) : Bool :=
  c = ' ' || c = '\t' || c = '\n' || c = '\r'

/-- Value of a digit run, most significant first. -/
def digitsToNat (ds : List Char) : ℕ :=
  ds.foldl (fun acc c => 10 * acc + (c.toNat - 48)) 0

/-- One capture group of the coordinate regex, -?d+.?d* followed by
parseFloat: an optional minus sign, at least one integer digit, an
optional dot and fraction digits. Returns the exact value and the
remaining input. -/
def parseSignedNum (cs : List Char) : Option (ℚ × List Char) :=
  let neg : Bool := cs.headD ' ' == '-'
  let cs1 : List Char := if neg then cs.tail else cs
  let intDigits := cs1.takeWhile Char.isDigit
  let cs2 := cs1.dropWhile Char.isDigit
  if intDigits.isEmpty then none
  else
    let hasDot : Bool := cs2.headD ' ' == '.'
    let fracDigits := if hasDot then cs2.tail.takeWhile Char.isDigit else []
    let rest := if hasDot then cs2.tail.dropWhile Char.isDigit else cs2
    let ip : ℚ := (digitsToNat intDigits : ℚ)
    let fp : ℚ := (digitsToNat fracDigits : ℚ) / (10 : ℚ) ^ fracDigits.length
    some ((if neg then -(ip + fp) else ip + fp), rest)

/-- The anchored coordinate-pair regex match of the service,
two signed decimals separated by a comma and optional whitespace. -/
def parseCoords (query : String) : Option (ℚ × ℚ) :=
  match parseSignedNum query.data with
  | none => none
  | some (lat, rest1) =>
    if rest1.headD ' ' == ',' then
      match parseSignedNum (rest1.tail.dropWhile jsIsSpace) with
      | none => none
      | some (lng, rest4) => if rest4.isEmpty then some (lat, lng) else none
    else none

/-- String.prototype.toLowerCase restricted to the alphabet the catalog
uses: ASCII letters plus the uppercase Spanish accented letters. -/
def jsToLowerChar (c : Char) : Char :=
  if 'A' ≤ c ∧ c ≤ 'Z' then Char.ofNat (c.toNat + 32)
  else if c = 'Á' then 'á'
  else if c = 'É' then 'é'
  else if c = 'Í' then 'í'
  else if c = 'Ó' then 'ó'
  else if c = 'Ú' then 'ú'
  else if c = 'Ü' then 'ü'
  else if c = 'Ñ' then 'ñ'
  else c

/-- toLowerCase over a whole string. -/
def jsToLower (s : String) : String :=
  ⟨s.data.map jsToLowerChar⟩

/-- String.prototype.trim. -/
def jsTrim (s : String) : String :=
  ⟨((s.data.dropWhile jsIsSpace).reverse.dropWhile jsIsSpace).reverse⟩

/-- The name normalization of findNearestSpanishPort:
locationName.toLowerCase().trim(). -/
def normalizeName (s : String) : String :=
  jsTrim (jsToLower s)

/-- Whether the first character list starts the second. -/
def startsWithChars : List Char → List Char → Bool
  | [], _ => true
  | _ :: _, [] => false
  | a :: as, b :: bs => a == b && startsWithChars as bs

/-- Whether the first character list occurs contiguously in the second. -/
def hasSubChars (needle : List Char) : List Char → Bool
  | [] => needle.isEmpty
  | c :: rest => startsWithChars needle (c :: rest) || hasSubChars needle rest

/-- JS hay.includes(needle). -/
def strIncludes (hay needle : String) : Bool :=
  hasSubChars needle.data hay.data

/-- One catalog entry of SPANISH_PORT_MAPPING. -/
structure SpanishPort where
  name : String
  lat : ℚ
  lng : ℚ
  aemetId : Option String
deriving DecidableEq

/-- The city-to-port catalog SPANISH_PORT_MAPPING, in source key order. -/
def SPANISH_PORT_MAPPING : List (String × SpanishPort) :=
  [("vigo", ⟨"Vigo", 422406/10000, -87206/10000, some "36057"⟩),
   ("a coruña", ⟨"A Coruña", 433623/10000, -84115/10000, none⟩),
   ("coruña", ⟨"A Coruña", 433623/10000, -84115/10000, none⟩),
   ("ferrol", ⟨"Ferrol", 434833/10000, -82333/10000, none⟩),
   ("bilbao", ⟨"Bilbao", 432627/10000, -29253/10000, none⟩),
   ("santander", ⟨"Santander", 434623/10000, -38099/10000, none⟩),
   ("gijón", ⟨"Gijón", 435453/10000, -56619/10000, none⟩),
   ("gijon", ⟨"Gijón", 435453/10000, -56619/10000, none⟩),
   ("oviedo", ⟨"Gijón", 435453/10000, -56619/10000, none⟩),
   ("avilés", ⟨"Avilés", 435567/10000, -59244/10000, some "33004"⟩),
   ("aviles", ⟨"Avilés", 435567/10000, -59244/10000, some "33004"⟩),
   ("ribadeo", ⟨"Ribadeo", 435367/10000, -70408/10000, none⟩),
   ("cudillero", ⟨"Cudillero", 435617/10000, -61456/10000, none⟩),
   ("luarca", ⟨"Luarca", 43450/1000, -65361/10000, some "33031"⟩),
   ("cabo peñas", ⟨"Cabo Peñas", 436500/10000, -58500/10000, none⟩),
   ("san sebastián", ⟨"San Sebastián", 433183/10000, -19812/10000, none⟩),
   ("san sebastian", ⟨"San Sebastián", 433183/10000, -19812/10000, none⟩),
   ("donostia", ⟨"San Sebastián", 433183/10000, -19812/10000, none⟩),
   ("valencia", ⟨"Valencia", 394699/10000, -3763/10000, none⟩),
   ("barcelona", ⟨"Barcelona", 413851/10000, 21734/10000, none⟩),
   ("tarragona", ⟨"Tarragona", 411189/10000, 12445/10000, none⟩),
   ("alicante", ⟨"Alicante", 383452/10000, -4810/10000, none⟩),
   ("cartagena", ⟨"Cartagena", 376000/10000, -9864/10000, none⟩),
   ("málaga", ⟨"Málaga", 367213/10000, -44214/10000, none⟩),
   ("malaga", ⟨"Málaga", 367213/10000, -44214/10000, none⟩),
   ("cádiz", ⟨"Cádiz", 365270/10000, -62886/10000, none⟩),
   ("cadiz", ⟨"Cádiz", 365270/10000, -62886/10000, none⟩),
   ("huelva", ⟨"Huelva", 372583/10000, -69508/10000, none⟩),
   ("sevilla", ⟨"Cádiz", 365270/10000, -62886/10000, none⟩),
   ("ceuta", ⟨"Ceuta", 358883/10000, -53167/10000, none⟩),
   ("melilla", ⟨"Melilla", 352923/10000, -29381/10000, none⟩),
   ("palma", ⟨"Palma", 395696/10000, 26502/10000, none⟩),
   ("palma de mallorca", ⟨"Palma", 395696/10000, 26502/10000, none⟩),
   ("mahón", ⟨"Mahón", 398885/10000, 42614/10000, none⟩),
   ("mahon", ⟨"Mahón", 398885/10000, 42614/10000, none⟩),
   ("las palmas", ⟨"Las Palmas", 281248/10000, -154300/10000, none⟩),
   ("santa cruz de tenerife", ⟨"Santa Cruz de Tenerife", 284636/10000, -162518/10000, none⟩),
   ("tenerife", ⟨"Santa Cruz de Tenerife", 284636/10000, -162518/10000, none⟩)]

/-- Math.sqrt(Math.pow(lat - port.lat, 2) + Math.pow(lng - port.lng, 2)):
the Euclidean distance of raw degree coordinates used by the resolver. -/
noncomputable def euclidDeg (lat lng plat plng : ℚ) : ℝ :=
  Real.sqrt ((((lat : ℝ) - (plat : ℝ)) ^ 2) + (((lng : ℝ) - (plng : ℝ)) ^ 2))

/-- Resolver result: a spread copy of a catalog port, with the distance
field only present on the distance-fallback path (which also drops the
aemetId field, as the source object literal does). -/
structure PortResult where
  name : String
  lat : ℚ
  lng : ℚ
  aemetId : Option String
  distance : Option ℝ

/-- The nearestPort local object of the source loop. -/
structure NearAcc where
  name : String
  lat : ℚ
  lng : ℚ
  distance : ℝ

/-- One step of the nearest-port loop: replace the best candidate when the
new distance is strictly smaller. -/
noncomputable def nearStep (lat lng : ℚ) (acc : Option NearAcc) (port : SpanishPort) :
    Option NearAcc :=
  let d := euclidDeg lat lng port.lat port.lng
  match acc with
  | none => some ⟨port.name, port.lat, port.lng, d⟩
  | some a => if d < a.distance then some ⟨port.name, port.lat, port.lng, d⟩ else some a

/-- The nearest-port accumulator loop of findNearestSpanishPort: keeps the
first port of catalog order at strictly minimal Euclidean degree distance. -/
noncomputable def nearestFold (lat lng : ℚ) (ports : List SpanishPort) :
    Option NearAcc :=
  ports.foldl (nearStep lat lng) none

/-- findNearestSpanishPort from services/tideApiService.ts: exact
normalized-key lookup, then substring containment either way in catalog
order, then the nearest catalog port by Euclidean degree distance. An
empty hint string is falsy in JS and skips the name phases. -/
noncomputable def findNearestSpanishPort (lat lng : ℚ) (locationName : Option String) :
    Option PortResult :=
  let byDistance := (nearestFold lat lng (SPANISH_PORT_MAPPING.map Prod.snd)).map
    (fun a => (⟨a.name, a.lat, a.lng, none, some a.distance⟩ : PortResult))
  match locationName with
  | none => byDistance
  | some nm =>
    if nm = "" then byDistance
    else
      let normalizedName := normalizeName nm
      match List.lookup normalizedName SPANISH_PORT_MAPPING with
      | some port => some ⟨port.name, port.lat, port.lng, port.aemetId, none⟩
      | none =>
        match SPANISH_PORT_MAPPING.find?
            (fun kv => strIncludes normalizedName kv.1 || strIncludes kv.1 normalizedName) with
        | some kv => some ⟨kv.2.name, kv.2.lat, kv.2.lng, kv.2.aemetId, none⟩
        | none => byDistance

/-- Geocoder output lat/lng/displayName. -/
structure GeoData where
  lat : ℚ
  lng : ℚ
  name : String

/-- Sunrise and sunset display strings. -/
structure SunTimes where
  sunrise : String
  sunset : String

/-- Delivered outcomes of every external call one fetchTideData run makes.
A provider field of none models an error, a timeout or a null result. -/
structure Env where
  reverseName : Option String
  searchResult : Option GeoData
  sun : SunTimes
  aemet : Option (List TideEvent)
  tablademareas : Option (List TideEvent)
  worldtides : Option (List TideEvent)
  allowDirect : Bool
  now : DateModel
  dateStr : String

/-- Display name used when reverse geocoding of a literal coordinate pair
fails: the template string of the two coordinates. -/
def coordName (lat lng : ℚ) : String :=
  toString lat ++ ", " ++ toString lng

/-- geocodeLocation from services/tideApiService.ts. A literal coordinate
pair is parsed locally and range-checked (none when out of range); a
name query returns the delivered forward-search outcome, whose none case
covers the network error and the empty result set. -/
def geocodeLocation (env : Env) (query : String) : Option GeoData :=
  match parseCoords query with
  | some (lat, lng) =>
    if lat < -90 ∨ 90 < lat ∨ lng < -180 ∨ 180 < lng then none
    else
      match env.reverseName with
      | some nm => some ⟨lat, lng, nm⟩
      | none => some ⟨lat, lng, coordName lat lng⟩
  | none => env.searchResult

/-- JS truncation toward zero, as used by the % operator. -/
def jsTruncQ (x : ℚ) : ℤ :=
  if 0 ≤ x then ⌊x⌋ else ⌈x⌉

/-- The JS remainder operator a % b on exact rationals. -/
def jsFmodQ (a b : ℚ) : ℚ :=
  a - b * (jsTruncQ (a / b) : ℚ)

/-- JS truncation toward zero on reals. -/
noncomputable def jsTruncR (x : ℝ) : ℤ :=
  if 0 ≤ x then ⌊x⌋ else ⌈x⌉

/-- The JS remainder operator a % b on reals. -/
noncomputable def jsFmodR (a b : ℝ) : ℝ :=
  a - b * ((jsTruncR (a / b) : ℤ) : ℝ)

/-- Comparator key order of sort((a, b) => a.time.localeCompare(b.time)):
lexicographic on the zero-padded hour and minute fields. -/
def hmLe (a b : TideEvent) : Prop :=
  a.time.hours < b.time.hours ∨
    (a.time.hours = b.time.hours ∧ a.time.minutes ≤ b.time.minutes)

instance : DecidableRel hmLe :=
  fun a b => inferInstanceAs (Decidable (_ ∨ _))

instance : IsTotal TideEvent hmLe :=
  ⟨fun a b => by
    rcases lt_trichotomy a.time.hours b.time.hours with h | h | h
    · exact Or.inl (Or.inl h)
    · rcases le_total a.time.minutes b.time.minutes with hm | hm
      · exact Or.inl (Or.inr ⟨h, hm⟩)
      · exact Or.inr (Or.inr ⟨h.symm, hm⟩)
    · exact Or.inr (Or.inl h)⟩

instance : IsTrans TideEvent hmLe :=
  ⟨fun a b c hab hbc => by
    rcases hab with h1 | ⟨h1, m1⟩
    · rcases hbc with h2 | ⟨h2, m2⟩
      · exact Or.inl (lt_trans h1 h2)
      · exact Or.inl (h2 ▸ h1)
    · rcases hbc with h2 | ⟨h2, m2⟩
      · exact Or.inl (h1 ▸ h2)
      · exact Or.inr ⟨h1.trans h2, le_trans m1 m2⟩⟩

/-- The stable sort by time string used by the service on event lists. -/
def sortByTimeKey (l : List TideEvent) : List TideEvent :=
  l.insertionSort hmLe

/-- calculateApproximateTides from services/tideApiService.ts: the
deterministic lunar-phase and latitude/longitude based fallback generator
of 4 alternating HIGH/LOW events. -/
noncomputable def calculateApproximateTides (lat lng : ℚ) (date : DateModel) :
    List TideEvent :=
  let knownNewMoonMs : ℤ := 1704931200000
  let daysSinceNewMoon : ℝ := ((date.epochMs - knownNewMoonMs : ℤ) : ℝ) / 86400000
  let synodic : ℝ := 2953059 / 100000
  let lunarPhase : ℝ := jsFmodR daysSinceNewMoon synodic / synodic
  let phaseAngle : ℝ := lunarPhase * Real.pi * 2
  let coefficient : ℤ := 50 + jsRoundR (70 * |Real.sin phaseAngle|)
  let localHour : ℚ := (date.hours : ℚ) + (date.minutes : ℚ) / 60
  let longitudeOffset : ℚ := lng / 15
  let baseHour : ℚ := jsFmodQ (localHour + longitudeOffset) 24
  let tidePeriod : ℚ := 1242 / 100
  let latFactor : ℝ := |Real.sin ((lat : ℝ) * Real.pi / 180)|
  let baseHighHeight : ℝ := 5 / 2 + latFactor * 2
  let baseLowHeight : ℝ := 1 / 2 + latFactor * (1 / 2)
  let heightRange : ℝ := ((coefficient : ℝ) / 120) * 2
  let mkEvent : ℕ → TideEvent := fun i =>
    let isHigh := i % 2 = 0
    let eventHour : ℚ := jsFmodQ (baseHour + (i : ℚ) * tidePeriod / 2) 24
    let lunarAdjustment : ℝ := Real.sin phaseAngle * (1 / 2)
    let adjustedHour : ℝ := jsFmodR ((eventHour : ℝ) + lunarAdjustment + 24) 24
    let hh : ℤ := ⌊adjustedHour⌋
    let mm : ℤ := ⌊(adjustedHour - (hh : ℝ)) * 60⌋
    let height : ℝ := if isHigh then baseHighHeight + heightRange else baseLowHeight - heightRange
    ⟨⟨hh, mm⟩, round2Q (max (1 / 10) (min 6 height)),
      if isHigh then TideType.HIGH else TideType.LOW⟩
  sortByTimeKey ((List.range 4).map mkEvent)

/-- Math.max of a nonempty height list; the empty case is never reached by
the service (JS would give -Infinity there). -/
def jsMaxList (l : List ℚ) : ℚ :=
  match l with
  | [] => 0
  | h :: t => t.foldl max h

/-- Math.min of a nonempty height list. -/
def jsMinList (l : List ℚ) : ℚ :=
  match l with
  | [] => 0
  | h :: t => t.foldl min h

/-- The coefficient computation of fetchTideData:
Math.min(120, Math.max(20, Math.round(range / 4 * 100))). -/
def coefficientOf (tides : List TideEvent) : ℤ :=
  let heights := tides.map (fun t => t.height)
  min 120 (max 20 (jsRound ((jsMaxList heights - jsMinList heights) / 4 * 100)))

/-- The three tide-data providers, in the order the source tries them. -/
inductive Provider where
  | aemet
  | tablademareas
  | worldtides
deriving DecidableEq

/-- A provider outcome counts as failed when it is an error, a timeout or
an empty parsed list; all three are the source conditions that advance
the chain. -/
def failsOutcome (o : Option (List TideEvent)) : Bool :=
  match o with
  | none => true
  | some l => l.isEmpty

/-- Intermediate pipeline state after the Spanish-source block. -/
structure Stage where
  name : String
  lat : ℚ
  lng : ℚ
  referenceLocationName : Option String
  referenceCoordinates : Option (ℚ × ℚ)
  tides : Option (List TideEvent)
  dataSource : String
  sourceError : Option String
  trace : List Provider

/-- The final snapshot record returned by fetchTideData. -/
structure TideData where
  requestedName : String
  locationName : String
  coordinates : ℚ × ℚ
  referenceLocationName : Option String
  referenceCoordinates : Option (ℚ × ℚ)
  requestedCoordinates : ℚ × ℚ
  dataSource : String
  isApproximate : Bool
  dataDisclaimer : Option String
  sourceError : Option String
  date : String
  coefficient : ℤ
  sun : SunTimes
  tides : List TideEvent
  currentHeight : Option ℝ
  isRising : Prop
  chartData : List CurvePoint

/-- Step 1 of fetchTideData: geocode, then on failure re-parse a literal
coordinate pair without any range validation, then the hard-coded Vigo
default (the query string itself is kept as the name, "Vigo" replacing
an empty falsy query). -/
def resolveGeo (env : Env) (locationQuery : String) : GeoData :=
  match geocodeLocation env locationQuery with
  | some g => g
  | none =>
    match parseCoords locationQuery with
    | some (lat, lng) => ⟨lat, lng, locationQuery⟩
    | none => ⟨422406/10000, -87206/10000, if locationQuery = "" then "Vigo" else locationQuery⟩

/-- The Spanish-source block of fetchTideData: when a port resolves, the
display name and coordinates snap to the port, AEMET is consulted first
(behind the direct-access flag), then tablademareas while the event list
is still empty. -/
def spanishStage (env : Env) (g : GeoData) (port : Option PortResult) : Stage :=
  match port with
  | none => ⟨g.name, g.lat, g.lng, none, none, none, "", none, []⟩
  | some p =>
    let st0 : Stage :=
      ⟨p.name, p.lat, p.lng, some p.name, some (p.lat, p.lng), none, "", none, []⟩
    let st1 : Stage :=
      if env.allowDirect then
        let r := env.aemet
        ⟨st0.name, st0.lat, st0.lng, st0.referenceLocationName, st0.referenceCoordinates,
          r, if failsOutcome r then "" else "AEMET (predicción marítima)", none,
          [Provider.aemet]⟩
      else
        ⟨st0.name, st0.lat, st0.lng, st0.referenceLocationName, st0.referenceCoordinates,
          none, "", some "AEMET requiere un proxy backend por CORS en producción.", []⟩
    if failsOutcome st1.tides ∧ env.allowDirect then
      let r := env.tablademareas
      ⟨st1.name, st1.lat, st1.lng, st1.referenceLocationName, st1.referenceCoordinates,
        r, if failsOutcome r then st1.dataSource else "tablademareas.com (IHM)",
        st1.sourceError, st1.trace ++ [Provider.tablademareas]⟩
    else if ¬env.allowDirect ∧ failsOutcome st1.tides then
      ⟨st1.name, st1.lat, st1.lng, st1.referenceLocationName, st1.referenceCoordinates,
        st1.tides, st1.dataSource,
        some "Necesitas un proxy para consultar tablademareas.com sin CORS.", st1.trace⟩
    else st1

/-- The WorldTides fallback of fetchTideData, consulted only while the
event list is still empty. -/
def worldStage (env : Env) (st : Stage) : Stage :=
  if failsOutcome st.tides then
    let r := env.worldtides
    ⟨st.name, st.lat, st.lng, st.referenceLocationName, st.referenceCoordinates,
      r, if failsOutcome r then st.dataSource else "WorldTides API (estimación)",
      st.sourceError, st.trace ++ [Provider.worldtides]⟩
  else st

/-- The local approximation fallback of fetchTideData; the second
component is the isApproximate flag and the third the disclaimer. -/
noncomputable def approxStage (env : Env) (st : Stage) :
    Stage × Bool × Option String :=
  if failsOutcome st.tides then
    (⟨st.name, st.lat, st.lng, st.referenceLocationName, st.referenceCoordinates,
       some (calculateApproximateTides st.lat st.lng env.now),
       if st.dataSource = "" then "Cálculo aproximado local" else st.dataSource,
       st.sourceError, st.trace⟩,
     true,
     some (match st.sourceError with
       | some e => "Datos aproximados por falta de respuesta de APIs (p.ej. CORS): " ++ e
       | none => "Datos aproximados calculados localmente; confirma con una fuente oficial si necesitas precisión."))
  else (st, false, none)

/-- The resolution pipeline of one fetchTideData run, up to and including
the approximation fallback: the resulting stage, the isApproximate flag
and the approximation disclaimer. -/
noncomputable def pipelineStage (env : Env) (locationQuery : String) :
    Stage × Bool × Option String :=
  let g := resolveGeo env locationQuery
  approxStage env (worldStage env (spanishStage env g
    (findNearestSpanishPort g.lat g.lng (some g.name))))

/-- Assembly of the final snapshot record of fetchTideData from the final
pipeline stage and the realized event list. -/
noncomputable def assembleSnapshot (env : Env) (locationQuery : String) (st : Stage)
    (isApprox : Bool) (disclaimer : Option String) (tides : List TideEvent) : TideData :=
  let g := resolveGeo env locationQuery
  let ch := calculateCurrentHeight env.now tides
  ⟨locationQuery, st.name, (st.lat, st.lng), st.referenceLocationName,
   st.referenceCoordinates, (g.lat, g.lng),
   (if st.dataSource = "" then "Origen no determinado" else st.dataSource), isApprox,
   (if isApprox ∧ disclaimer = none then
      some "Datos aproximados generados al no disponer de predicción oficial en este entorno."
    else disclaimer),
   st.sourceError, env.dateStr, coefficientOf tides, env.sun, sortByTimeKey tides,
   ch.1, ch.2, generateTideCurve tides⟩

/-- The try body of fetchTideData; Except.error models the one explicit
throw (no tide data at all), which the outer catch converts to the mock
snapshot. The second component records which providers were consulted,
in order. -/
noncomputable def fetchTideDataBody (env : Env) (locationQuery : String) :
    Except Unit (TideData × List Provider) :=
  let p := pipelineStage env locationQuery
  match p.1.tides with
  | none => Except.error ()
  | some tides =>
    if tides.isEmpty then Except.error ()
    else
      Except.ok (assembleSnapshot env locationQuery p.1 p.2.1 p.2.2 tides, p.1.trace)

/-- The hard-coded fallback tide table of MOCK_TIDE_DATA. -/
def MOCK_TIDES : List TideEvent :=
  [⟨⟨5, 12⟩, 41/10, TideType.HIGH⟩,
   ⟨⟨11, 24⟩, 6/10, TideType.LOW⟩,
   ⟨⟨17, 41⟩, 402/100, TideType.HIGH⟩,
   ⟨⟨23, 48⟩, 77/100, TideType.LOW⟩]

/-- The catch branch of fetchTideData: the labeled mock snapshot. -/
noncomputable def mockSnapshot (env : Env) (locationQuery : String) : TideData :=
  let q := if locationQuery = "" then "Vigo" else locationQuery
  ⟨q, q ++ " (Simulado)", (4354/100, -672/100), some (q ++ " (simulado)"), none,
   (4354/100, -672/100), "Simulación de respaldo", true,
   some "Datos simulados por error en las fuentes oficiales. Configura un proxy AEMET/tablas en producción para obtener datos reales.",
   none, env.dateStr, 82, ⟨"08:54", "19:28"⟩, MOCK_TIDES, some (256/100), False,
   generateTideCurve MOCK_TIDES⟩

/-- fetchTideData from services/tideApiService.ts: the try body, with the
outer catch mapping any thrown error to the mock snapshot. -/
noncomputable def fetchTideData (env : Env) (locationQuery : String) : TideData :=
  match fetchTideDataBody env locationQuery with
  | Except.ok p => p.1
  | Except.error _ => mockSnapshot env locationQuery

/-- The ordered list of providers a fetchTideData run consulted. -/
noncomputable def providerTrace (env : Env) (locationQuery : String) : List Provider :=
  match fetchTideDataBody env locationQuery with
  | Except.ok p => p.2
  | Except.error _ => []

/-! Proof infrastructure for the curve synthesizer. -/

/-- Decimal time of the event at index i of a list. -/
def tmAt (s : List TideEvent) (i : ℕ) : ℚ :=
  timeToDecimal (s.getD i dummyEvent).time

/-- Height of the event at index i of a list. -/
def hAt (s : List TideEvent) (i : ℕ) : ℚ :=
  (s.getD i dummyEvent).height

/-- Strictly ascending decimal times, the sorted-with-distinct-times shape. -/
def strictByTime (s : List TideEvent) : Prop :=
  s.Pairwise (fun a b => timeToDecimal a.time < timeToDecimal b.time)

theorem headD_eq_getD_zero (l : List TideEvent) (d : TideEvent) :
    l.headD d = l.getD 0 d := by
  cases l <;> rfl

theorem getD_irrel (l : List TideEvent) (i : ℕ) (h : i < l.length) (d1 d2 : TideEvent) :
    l.getD i d1 = l.getD i d2 := by
  rw [List.getD_eq_getElem l d1 h, List.getD_eq_getElem l d2 h]

theorem getLastD_eq_getD (l : List TideEvent) :
    ∀ d : TideEvent, l.getLastD d = l.getD (l.length - 1) d := by
  induction l with
  | nil => intro d; rfl
  | cons a as ih =>
    intro d
    cases as with
    | nil => rfl
    | cons b bs =>
      have h1 : (a :: b :: bs).getLastD d = (b :: bs).getLastD a := by
        rw [List.getLastD_eq_getLast?, List.getLastD_eq_getLast?, List.getLast?_cons_cons]
        cases hbl : (b :: bs).getLast? with
        | none => simp at hbl
        | some x => rfl
      rw [h1, ih a]
      simp only [List.length_cons, Nat.add_sub_cancel]
      rw [List.getD_cons_succ]
      exact getD_irrel _ _ (by simp) _ _

theorem find?_range'_of_min (p : ℕ → Bool) (k : ℕ) :
    ∀ (st len : ℕ), k < len → p (st + k) = true →
      (∀ j, j < k → p (st + j) = false) →
      (List.range' st len).find? p = some (st + k) := by
  induction k with
  | zero =>
    intro st len hlen hp _
    cases len with
    | zero => omega
    | succ n =>
      rw [List.range'_succ, List.find?_cons_of_pos _ (by simpa using hp)]
      simp
  | succ k ih =>
    intro st len hlen hp hmin
    cases len with
    | zero => omega
    | succ n =>
      rw [List.range'_succ]
      rw [List.find?_cons_of_neg]
      · have e1 : st + 1 + k = st + (k + 1) := by omega
        have h1 : p (st + 1 + k) = true := by rw [e1]; exact hp
        have h2 : ∀ j, j < k → p (st + 1 + j) = false := by
          intro j hj
          have e2 : st + 1 + j = st + (j + 1) := by omega
          rw [e2]
          exact hmin (j + 1) (by omega)
        have := ih (st + 1) n (by omega) h1 h2
        rw [this, e1]
      · simpa using hmin 0 (by omega)

theorem find?_range'_min (p : ℕ → Bool) :
    ∀ (len st i : ℕ), (List.range' st len).find? p = some i →
      p i = true ∧ st ≤ i ∧ i < st + len ∧ ∀ j, st ≤ j → j < i → p j = false := by
  intro len
  induction len with
  | zero => intro st i h; simp at h
  | succ n ih =>
    intro st i h
    rw [List.range'_succ] at h
    by_cases hp : p st = true
    · rw [List.find?_cons_of_pos _ hp] at h
      obtain rfl : st = i := by simpa using h
      exact ⟨hp, le_refl _, by omega, fun j h1 h2 => absurd (lt_of_le_of_lt h1 h2) (lt_irrefl _)⟩
    · rw [List.find?_cons_of_neg _ (by simpa using hp)] at h
      obtain ⟨h1, h2, h3, h4⟩ := ih (st + 1) i h
      refine ⟨h1, by omega, by omega, fun j hj1 hj2 => ?_⟩
      rcases Nat.eq_or_lt_of_le hj1 with rfl | hj3
      · simpa using hp
      · exact h4 j hj3 hj2

theorem tmAt_le_of_sorted {s : List TideEvent} (hs : List.Sorted decLe s)
    {i j : ℕ} (hij : i ≤ j) (hj : j < s.length) :
    tmAt s i ≤ tmAt s j := by
  rcases Nat.eq_or_lt_of_le hij with rfl | hlt
  · exact le_refl _
  · have hi : i < s.length := lt_trans hlt hj
    have := (List.pairwise_iff_get.mp hs) ⟨i, hi⟩ ⟨j, hj⟩ hlt
    unfold tmAt
    rw [List.getD_eq_get _ _ hi, List.getD_eq_get _ _ hj]
    exact this

theorem tmAt_lt_of_strict {s : List TideEvent} (hs : strictByTime s)
    {i j : ℕ} (hij : i < j) (hj : j < s.length) :
    tmAt s i < tmAt s j := by
  have hi : i < s.length := lt_trans hij hj
  have := (List.pairwise_iff_get.mp hs) ⟨i, hi⟩ ⟨j, hj⟩ hij
  unfold tmAt
  rw [List.getD_eq_get _ _ hi, List.getD_eq_get _ _ hj]
  exact this

theorem strictByTime.sorted {s : List TideEvent} (hs : strictByTime s) :
    List.Sorted decLe s :=
  hs.imp (fun h => le_of_lt h)

theorem sortByDec_eq_self {s : List TideEvent} (hs : List.Sorted decLe s) :
    sortByDec s = s :=
  List.Sorted.insertionSort_eq hs

theorem cosInterp_left (t1 h1 t2 h2 : ℚ) :
    cosInterp t1 h1 t2 h2 t1 = (h1 : ℝ) := by
  unfold cosInterp
  rw [sub_self]
  rw [mul_zero, zero_div, Real.cos_zero]
  ring

theorem cosInterp_right (t1 h1 t2 h2 : ℚ) (h : t1 ≠ t2) :
    cosInterp t1 h1 t2 h2 t2 = (h2 : ℝ) := by
  unfold cosInterp
  have hne : ((t2 : ℝ) - (t1 : ℝ)) ≠ 0 := by
    rw [sub_ne_zero]
    exact_mod_cast Ne.symm h
  rw [mul_div_assoc, div_self hne, mul_one, Real.cos_pi]
  ring

theorem cosInterp_mid (t1 h1 t2 h2 : ℚ) (h : t1 ≠ t2) :
    cosInterp t1 h1 t2 h2 ((t1 + t2) / 2) = ((h1 : ℝ) + (h2 : ℝ)) / 2 := by
  unfold cosInterp
  have hne : ((t2 : ℝ) - (t1 : ℝ)) ≠ 0 := by
    rw [sub_ne_zero]
    exact_mod_cast Ne.symm h
  have e1 : ((((t1 + t2) / 2 : ℚ) : ℝ) - (t1 : ℝ)) = ((t2 : ℝ) - (t1 : ℝ)) / 2 := by
    push_cast
    ring
  rw [e1]
  have e2 : Real.pi * (((t2 : ℝ) - (t1 : ℝ)) / 2) / ((t2 : ℝ) - (t1 : ℝ)) = Real.pi / 2 := by
    field_simp
    ring
  rw [e2, Real.cos_pi_div_two]
  ring

theorem jsToFixed2_ratCast (q : ℚ) :
    jsToFixed2 ((q : ℝ)) = ((⌊q * 100 + 1 / 2⌋ : ℤ) : ℝ) / 100 := by
  unfold jsToFixed2
  have e : ((q : ℝ) * 100 + 1 / 2) = (((q * 100 + 1 / 2 : ℚ)) : ℝ) := by
    push_cast
    ring
  rw [e, Rat.floor_cast]

theorem length_sortByDec (l : List TideEvent) :
    (sortByDec l).length = l.length :=
  List.length_insertionSort decLe l

theorem sorted_sortByDec (l : List TideEvent) :
    List.Sorted decLe (sortByDec l) :=
  List.sorted_insertionSort decLe l

theorem segCond_iff (t : ℚ) (s : List TideEvent) (j : ℕ) :
    segCond t s j = true ↔ (tmAt s j ≤ t ∧ t ≤ tmAt s (j + 1)) := by
  simp [segCond, tmAt]

theorem segIdx_eq (t : ℚ) (s : List TideEvent) (k : ℕ) (hk : k < s.length - 1)
    (hp : segCond t s k = true) (hmin : ∀ j, j < k → segCond t s j = false) :
    segIdx t s = k := by
  unfold segIdx
  rw [List.range_eq_range']
  have h := find?_range'_of_min (segCond t s) k 0 (s.length - 1) hk
    (by simpa using hp) (by simpa using hmin)
  rw [h]
  simp

theorem segIdx_spec (t : ℚ) (s : List TideEvent)
    (h : ∃ j, j < s.length - 1 ∧ segCond t s j = true) :
    segCond t s (segIdx t s) = true ∧ segIdx t s < s.length - 1 ∧
      ∀ j, j < segIdx t s → segCond t s j = false := by
  obtain ⟨j0, hj0, hcond⟩ := h
  unfold segIdx
  rw [List.range_eq_range']
  cases hf : (List.range' 0 (s.length - 1)).find? (segCond t s) with
  | none =>
    exfalso
    have hmem : j0 ∈ List.range' 0 (s.length - 1) := by
      simp only [List.mem_range'_1]
      omega
    have := List.find?_eq_none.mp hf j0 hmem
    rw [hcond] at this
    exact this rfl
  | some i =>
    obtain ⟨h1, h2, h3, h4⟩ := find?_range'_min (segCond t s) (s.length - 1) 0 i hf
    simp only [Option.getD_some]
    exact ⟨h1, by omega, fun j hj => h4 j (by omega) hj⟩

theorem selectBounds_before (t : ℚ) (s : List TideEvent)
    (hb : t ≤ timeToDecimal (s.headD dummyEvent).time) :
    selectBounds t s =
      ⟨timeToDecimal (s.headD dummyEvent).time - 621 / 100, virtualHeight (s.headD dummyEvent),
        timeToDecimal (s.headD dummyEvent).time, (s.headD dummyEvent).height⟩ := by
  simp only [selectBounds]
  rw [if_pos hb]

theorem selectBounds_after (t : ℚ) (s : List TideEvent)
    (hb : ¬ t ≤ timeToDecimal (s.headD dummyEvent).time)
    (ha : timeToDecimal (s.getLastD dummyEvent).time ≤ t) :
    selectBounds t s =
      ⟨timeToDecimal (s.getLastD dummyEvent).time, (s.getLastD dummyEvent).height,
        timeToDecimal (s.getLastD dummyEvent).time + 621 / 100,
        virtualHeight (s.getLastD dummyEvent)⟩ := by
  simp only [selectBounds]
  rw [if_neg hb, if_pos ha]

theorem selectBounds_interior (t : ℚ) (s : List TideEvent)
    (hb : ¬ t ≤ timeToDecimal (s.headD dummyEvent).time)
    (ha : ¬ timeToDecimal (s.getLastD dummyEvent).time ≤ t) :
    selectBounds t s =
      ⟨tmAt s (segIdx t s), hAt s (segIdx t s),
        tmAt s (segIdx t s + 1), hAt s (segIdx t s + 1)⟩ := by
  simp only [selectBounds]
  rw [if_neg hb, if_neg ha]
  rfl

theorem getTideHeightAtTime_eq (t : ℚ) (tides : List TideEvent)
    (h0 : ¬ tides.length = 0) :
    getTideHeightAtTime t tides =
      (if (selectBounds t (sortByDec tides)).t2 - (selectBounds t (sortByDec tides)).t1 = 0
       then none
       else some (jsToFixed2 (cosInterp (selectBounds t (sortByDec tides)).t1
         (selectBounds t (sortByDec tides)).h1 (selectBounds t (sortByDec tides)).t2
         (selectBounds t (sortByDec tides)).h2 t))) := by
  unfold getTideHeightAtTime
  rw [if_neg h0]

theorem heightAt_before (t : ℚ) (tides : List TideEvent) (h0 : ¬ tides.length = 0)
    (hb : t ≤ tmAt (sortByDec tides) 0) :
    getTideHeightAtTime t tides =
      some (jsToFixed2 (cosInterp (tmAt (sortByDec tides) 0 - 621 / 100)
        (virtualHeight ((sortByDec tides).getD 0 dummyEvent))
        (tmAt (sortByDec tides) 0) (hAt (sortByDec tides) 0) t)) := by
  have hb2 : t ≤ timeToDecimal ((sortByDec tides).headD dummyEvent).time := by
    rw [headD_eq_getD_zero]
    exact hb
  rw [getTideHeightAtTime_eq t tides h0, selectBounds_before t (sortByDec tides) hb2]
  rw [if_neg (by rw [sub_sub_cancel]; norm_num)]
  rw [headD_eq_getD_zero]
  rfl

theorem heightAt_after (t : ℚ) (tides : List TideEvent) (h0 : ¬ tides.length = 0)
    (hb : ¬ t ≤ tmAt (sortByDec tides) 0)
    (ha : tmAt (sortByDec tides) ((sortByDec tides).length - 1) ≤ t) :
    getTideHeightAtTime t tides =
      some (jsToFixed2 (cosInterp
        (tmAt (sortByDec tides) ((sortByDec tides).length - 1))
        (hAt (sortByDec tides) ((sortByDec tides).length - 1))
        (tmAt (sortByDec tides) ((sortByDec tides).length - 1) + 621 / 100)
        (virtualHeight ((sortByDec tides).getD ((sortByDec tides).length - 1) dummyEvent)) t)) := by
  have hb2 : ¬ t ≤ timeToDecimal ((sortByDec tides).headD dummyEvent).time := by
    rw [headD_eq_getD_zero]
    exact hb
  have ha2 : timeToDecimal ((sortByDec tides).getLastD dummyEvent).time ≤ t := by
    rw [getLastD_eq_getD]
    exact ha
  rw [getTideHeightAtTime_eq t tides h0, selectBounds_after t (sortByDec tides) hb2 ha2]
  rw [if_neg (by rw [add_sub_cancel_left]; norm_num)]
  rw [getLastD_eq_getD]
  rfl

theorem heightAt_interior (t : ℚ) (tides : List TideEvent) (h0 : ¬ tides.length = 0)
    (hb : ¬ t ≤ tmAt (sortByDec tides) 0)
    (ha : ¬ tmAt (sortByDec tides) ((sortByDec tides).length - 1) ≤ t)
    (hne : tmAt (sortByDec tides) (segIdx t (sortByDec tides) + 1) -
      tmAt (sortByDec tides) (segIdx t (sortByDec tides)) ≠ 0) :
    getTideHeightAtTime t tides =
      some (jsToFixed2 (cosInterp
        (tmAt (sortByDec tides) (segIdx t (sortByDec tides)))
        (hAt (sortByDec tides) (segIdx t (sortByDec tides)))
        (tmAt (sortByDec tides) (segIdx t (sortByDec tides) + 1))
        (hAt (sortByDec tides) (segIdx t (sortByDec tides) + 1)) t)) := by
  have hb2 : ¬ t ≤ timeToDecimal ((sortByDec tides).headD dummyEvent).time := by
    rw [headD_eq_getD_zero]
    exact hb
  have ha2 : ¬ timeToDecimal ((sortByDec tides).getLastD dummyEvent).time ≤ t := by
    rw [getLastD_eq_getD]
    exact ha
  rw [getTideHeightAtTime_eq t tides h0, selectBounds_interior t (sortByDec tides) hb2 ha2]
  rw [if_neg hne]

/-- In the interior branch a matching bounding segment always exists and
the first matching segment is never degenerate: a time equal to a
duplicated event time is caught by an earlier, nondegenerate segment (or
by the boundary branches). -/
theorem interior_segment_good (t : ℚ) (s : List TideEvent)
    (hsorted : List.Sorted decLe s)
    (hb : ¬ t ≤ tmAt s 0) (ha : ¬ tmAt s (s.length - 1) ≤ t) :
    segCond t s (segIdx t s) = true ∧ segIdx t s < s.length - 1 ∧
      tmAt s (segIdx t s) < tmAt s (segIdx t s + 1) := by
  have hb2 : tmAt s 0 < t := not_le.mp hb
  have ha2 : t < tmAt s (s.length - 1) := not_le.mp ha
  have hn2 : 2 ≤ s.length := by
    by_contra hc
    have : s.length - 1 = 0 := by omega
    rw [this] at ha2
    exact absurd (lt_trans hb2 ha2) (lt_irrefl _)
  have hex : ∃ j, j < s.length - 1 ∧ segCond t s j = true := by
    have hP0 : tmAt s 0 ≤ t := le_of_lt hb2
    have hPj : tmAt s (Nat.findGreatest (fun j => tmAt s j ≤ t) (s.length - 2)) ≤ t :=
      Nat.findGreatest_spec (P := fun j => tmAt s j ≤ t) (Nat.zero_le _) hP0
    have hjle : Nat.findGreatest (fun j => tmAt s j ≤ t) (s.length - 2) ≤ s.length - 2 :=
      Nat.findGreatest_le (s.length - 2)
    have hupper : t ≤ tmAt s (Nat.findGreatest (fun j => tmAt s j ≤ t) (s.length - 2) + 1) := by
      rcases Nat.eq_or_lt_of_le hjle with heq | hlt
      · rw [show Nat.findGreatest (fun j => tmAt s j ≤ t) (s.length - 2) + 1 = s.length - 1 by omega]
        exact le_of_lt ha2
      · have hnot : ¬ (tmAt s (Nat.findGreatest (fun j => tmAt s j ≤ t) (s.length - 2) + 1) ≤ t) :=
          Nat.findGreatest_is_greatest (P := fun j => tmAt s j ≤ t) (n := s.length - 2) (by omega) (by omega)
        exact le_of_lt (not_le.mp hnot)
    exact ⟨Nat.findGreatest (fun j => tmAt s j ≤ t) (s.length - 2), by omega,
      (segCond_iff t s _).mpr ⟨hPj, hupper⟩⟩
  obtain ⟨hc, hlt, hmin⟩ := segIdx_spec t s hex
  refine ⟨hc, hlt, ?_⟩
  obtain ⟨hle1, hle2⟩ := (segCond_iff t s (segIdx t s)).mp hc
  rcases lt_or_le (tmAt s (segIdx t s)) (tmAt s (segIdx t s + 1)) with hgood | hbad
  · exact hgood
  · exfalso
    have heq : tmAt s (segIdx t s) = tmAt s (segIdx t s + 1) := by
      have hmono : tmAt s (segIdx t s) ≤ tmAt s (segIdx t s + 1) :=
        tmAt_le_of_sorted hsorted (Nat.le_succ _) (by omega)
      exact le_antisymm hmono hbad
    have hteq : t = tmAt s (segIdx t s) := by
      have hle2b : t ≤ tmAt s (segIdx t s) := by
        rw [heq]
        exact hle2
      exact le_antisymm hle2b hle1
    cases hi : segIdx t s with
    | zero =>
      rw [hi] at hteq
      rw [hteq] at hb2
      exact lt_irrefl _ hb2
    | succ k =>
      have hck : segCond t s k = true := by
        rw [segCond_iff]
        constructor
        · have h1 : tmAt s k ≤ tmAt s (k + 1) :=
            tmAt_le_of_sorted hsorted (Nat.le_succ _) (by omega)
          have h2 : tmAt s (k + 1) = t := by
            rw [← hi]
            exact hteq.symm
          rw [h2] at h1
          exact h1
        · rw [← hi]
          exact le_of_eq hteq
      have hfalse := hmin k (by omega)
      rw [hfalse] at hck
      exact absurd hck (by decide)

theorem heightAt_before_sorted (t : ℚ) (s : List TideEvent) (h0 : ¬ s.length = 0)
    (hs : List.Sorted decLe s) (hb : t ≤ tmAt s 0) :
    getTideHeightAtTime t s =
      some (jsToFixed2 (cosInterp (tmAt s 0 - 621 / 100)
        (virtualHeight (s.getD 0 dummyEvent)) (tmAt s 0) (hAt s 0) t)) := by
  have hss : sortByDec s = s := sortByDec_eq_self hs
  have h := heightAt_before t s h0 (by rw [hss]; exact hb)
  rw [hss] at h
  exact h

theorem heightAt_after_sorted (t : ℚ) (s : List TideEvent) (h0 : ¬ s.length = 0)
    (hs : List.Sorted decLe s) (hb : ¬ t ≤ tmAt s 0) (ha : tmAt s (s.length - 1) ≤ t) :
    getTideHeightAtTime t s =
      some (jsToFixed2 (cosInterp (tmAt s (s.length - 1)) (hAt s (s.length - 1))
        (tmAt s (s.length - 1) + 621 / 100)
        (virtualHeight (s.getD (s.length - 1) dummyEvent)) t)) := by
  have hss : sortByDec s = s := sortByDec_eq_self hs
  have h := heightAt_after t s h0 (by rw [hss]; exact hb) (by rw [hss]; exact ha)
  rw [hss] at h
  exact h

theorem heightAt_interior_sorted (t : ℚ) (s : List TideEvent) (h0 : ¬ s.length = 0)
    (hs : List.Sorted decLe s) (hb : ¬ t ≤ tmAt s 0) (ha : ¬ tmAt s (s.length - 1) ≤ t)
    (hne : tmAt s (segIdx t s + 1) - tmAt s (segIdx t s) ≠ 0) :
    getTideHeightAtTime t s =
      some (jsToFixed2 (cosInterp (tmAt s (segIdx t s)) (hAt s (segIdx t s))
        (tmAt s (segIdx t s + 1)) (hAt s (segIdx t s + 1)) t)) := by
  have hss : sortByDec s = s := sortByDec_eq_self hs
  have h := heightAt_interior t s h0 (by rw [hss]; exact hb) (by rw [hss]; exact ha)
    (by rw [hss]; exact hne)
  rw [hss] at h
  exact h

/-- On a strictly sorted list the interior scan picks exactly the segment
whose left endpoint lies strictly below the query. -/
theorem segIdx_of_strict_between (t : ℚ) (s : List TideEvent) (hs : strictByTime s)
    (i : ℕ) (hi : i + 1 < s.length) (ht1 : tmAt s i < t) (ht2 : t ≤ tmAt s (i + 1)) :
    segIdx t s = i := by
  apply segIdx_eq t s i (by omega) ((segCond_iff t s i).mpr ⟨le_of_lt ht1, ht2⟩)
  intro j hj
  rw [Bool.eq_false_iff, Ne, segCond_iff]
  rintro ⟨-, habs⟩
  have hmono : tmAt s (j + 1) ≤ tmAt s i := by
    rcases Nat.eq_or_lt_of_le (Nat.succ_le_of_lt hj) with heq | hlt
    · have heq2 : j + 1 = i := by omega
      rw [heq2]
    · exact le_of_lt (tmAt_lt_of_strict hs hlt (by omega))
  exact absurd (le_trans habs hmono) (not_le.mpr ht1)

/-- The curve passes through every event of a strictly sorted list, up to
the final rounding to hundredths. -/
theorem heightAt_at_event (s : List TideEvent) (hs : strictByTime s)
    (k : ℕ) (hk : k < s.length) :
    getTideHeightAtTime (tmAt s k) s = some (jsToFixed2 ((hAt s k : ℝ))) := by
  have h0 : ¬ s.length = 0 := by omega
  have hsorted : List.Sorted decLe s := hs.sorted
  rcases Nat.eq_zero_or_pos k with rfl | hkpos
  · rw [heightAt_before_sorted (tmAt s 0) s h0 hsorted (le_refl _)]
    rw [cosInterp_right (tmAt s 0 - 621 / 100) (virtualHeight (s.getD 0 dummyEvent))
      (tmAt s 0) (hAt s 0) (by intro hq; linarith)]
  · have hb : ¬ tmAt s k ≤ tmAt s 0 := not_le.mpr (tmAt_lt_of_strict hs hkpos hk)
    rcases Nat.lt_or_ge k (s.length - 1) with hklt | hkge
    · have ha : ¬ tmAt s (s.length - 1) ≤ tmAt s k :=
        not_le.mpr (tmAt_lt_of_strict hs (by omega) (by omega))
      obtain ⟨k0, rfl⟩ : ∃ k0, k = k0 + 1 := ⟨k - 1, by omega⟩
      have hseg : segIdx (tmAt s (k0 + 1)) s = k0 :=
        segIdx_of_strict_between (tmAt s (k0 + 1)) s hs k0 (by omega)
          (tmAt_lt_of_strict hs (Nat.lt_succ_self k0) (by omega)) (le_refl _)
      have hne : tmAt s (segIdx (tmAt s (k0 + 1)) s + 1) -
          tmAt s (segIdx (tmAt s (k0 + 1)) s) ≠ 0 := by
        rw [hseg]
        exact sub_ne_zero.mpr
          (ne_of_gt (tmAt_lt_of_strict hs (Nat.lt_succ_self k0) (by omega)))
      rw [heightAt_interior_sorted _ s h0 hsorted hb ha hne, hseg]
      rw [cosInterp_right (tmAt s k0) (hAt s k0) (tmAt s (k0 + 1)) (hAt s (k0 + 1))
        (ne_of_lt (tmAt_lt_of_strict hs (Nat.lt_succ_self k0) (by omega)))]
    · have hkeq : k = s.length - 1 := by omega
      subst hkeq
      rw [heightAt_after_sorted _ s h0 hsorted hb (le_refl _)]
      rw [cosInterp_left]

/-- The curve synthesizer never reaches the degenerate division: every
query on every event list yields an ordinary number. -/
theorem heightAt_isSome (t : ℚ) (tides : List TideEvent) :
    (getTideHeightAtTime t tides).isSome := by
  by_cases h0 : tides.length = 0
  · unfold getTideHeightAtTime
    rw [if_pos h0]
    rfl
  · by_cases hb : t ≤ tmAt (sortByDec tides) 0
    · rw [heightAt_before t tides h0 hb]
      rfl
    · by_cases ha : tmAt (sortByDec tides) ((sortByDec tides).length - 1) ≤ t
      · rw [heightAt_after t tides h0 hb ha]
        rfl
      · obtain ⟨_, _, hgood⟩ :=
          interior_segment_good t (sortByDec tides) (sorted_sortByDec tides) hb ha
        rw [heightAt_interior t tides h0 hb ha (by exact sub_ne_zero.mpr (ne_of_gt hgood))]
        rfl

/-- Midpoint rounding bound: two integer-hundredths heights at least 0.02
apart keep the rounded midpoint strictly between them. -/
theorem midpoint_round_strict (a b : ℤ) (hab : 2 ≤ |a - b|) :
    min ((a : ℝ) / 100) ((b : ℝ) / 100) <
      ((⌊((a : ℚ) + (b : ℚ)) / 2 + 1 / 2⌋ : ℤ) : ℝ) / 100 ∧
    ((⌊((a : ℚ) + (b : ℚ)) / 2 + 1 / 2⌋ : ℤ) : ℝ) / 100 <
      max ((a : ℝ) / 100) ((b : ℝ) / 100) := by
  have hNle : ((⌊((a : ℚ) + (b : ℚ)) / 2 + 1 / 2⌋ : ℤ) : ℚ) ≤ ((a : ℚ) + (b : ℚ)) / 2 + 1 / 2 :=
    Int.floor_le _
  have hNgt : ((a : ℚ) + (b : ℚ)) / 2 + 1 / 2 - 1 <
      ((⌊((a : ℚ) + (b : ℚ)) / 2 + 1 / 2⌋ : ℤ) : ℚ) :=
    Int.sub_one_lt_floor _
  have hcases : a + 2 ≤ b ∨ b + 2 ≤ a := by
    rcases abs_cases (a - b) with ⟨he, _⟩ | ⟨he, _⟩ <;> omega
  rcases hcases with h2 | h2
  · have h2q : (a : ℚ) + 2 ≤ (b : ℚ) := by exact_mod_cast h2
    have haN : (a : ℚ) < ((⌊((a : ℚ) + (b : ℚ)) / 2 + 1 / 2⌋ : ℤ) : ℚ) := by linarith
    have hNb : ((⌊((a : ℚ) + (b : ℚ)) / 2 + 1 / 2⌋ : ℤ) : ℚ) < (b : ℚ) := by linarith
    have haNz : a < ⌊((a : ℚ) + (b : ℚ)) / 2 + 1 / 2⌋ := by exact_mod_cast haN
    have hNbz : ⌊((a : ℚ) + (b : ℚ)) / 2 + 1 / 2⌋ < b := by exact_mod_cast hNb
    have haNr : (a : ℝ) < ((⌊((a : ℚ) + (b : ℚ)) / 2 + 1 / 2⌋ : ℤ) : ℝ) := by exact_mod_cast haNz
    have hNbr : ((⌊((a : ℚ) + (b : ℚ)) / 2 + 1 / 2⌋ : ℤ) : ℝ) < (b : ℝ) := by exact_mod_cast hNbz
    constructor
    · exact lt_of_le_of_lt (min_le_left _ _) (by linarith)
    · exact lt_of_lt_of_le (by linarith) (le_max_right _ _)
  · have h2q : (b : ℚ) + 2 ≤ (a : ℚ) := by exact_mod_cast h2
    have hbN : (b : ℚ) < ((⌊((a : ℚ) + (b : ℚ)) / 2 + 1 / 2⌋ : ℤ) : ℚ) := by linarith
    have hNa : ((⌊((a : ℚ) + (b : ℚ)) / 2 + 1 / 2⌋ : ℤ) : ℚ) < (a : ℚ) := by linarith
    have hbNz : b < ⌊((a : ℚ) + (b : ℚ)) / 2 + 1 / 2⌋ := by exact_mod_cast hbN
    have hNaz : ⌊((a : ℚ) + (b : ℚ)) / 2 + 1 / 2⌋ < a := by exact_mod_cast hNa
    have hbNr : (b : ℝ) < ((⌊((a : ℚ) + (b : ℚ)) / 2 + 1 / 2⌋ : ℤ) : ℝ) := by exact_mod_cast hbNz
    have hNar : ((⌊((a : ℚ) + (b : ℚ)) / 2 + 1 / 2⌋ : ℤ) : ℝ) < (a : ℝ) := by exact_mod_cast hNaz
    constructor
    · exact lt_of_le_of_lt (min_le_right _ _) (by linarith)
    · exact lt_of_lt_of_le (by linarith) (le_max_left _ _)

/-- C1 (amended). For a strictly sorted event list and a query strictly
between the consecutive events at indices i and i+1, getTideHeightAtTime
returns the cosine interpolation rounded to two decimals; at the event
times themselves it returns the event heights rounded to two decimals,
and the midpoint value lies strictly between the two heights whenever
both are integer hundredths at least 0.02 apart. -/
theorem C1_cosine_interpolation_rounded (s : List TideEvent) (i : ℕ) (t : ℚ)
    (hs : strictByTime s) (hi : i + 1 < s.length)
    (ht1 : tmAt s i < t) (ht2 : t < tmAt s (i + 1)) :
    getTideHeightAtTime t s =
      some (jsToFixed2 (cosInterp (tmAt s i) (hAt s i) (tmAt s (i + 1)) (hAt s (i + 1)) t)) ∧
    getTideHeightAtTime (tmAt s i) s = some (jsToFixed2 ((hAt s i : ℝ))) ∧
    getTideHeightAtTime (tmAt s (i + 1)) s = some (jsToFixed2 ((hAt s (i + 1) : ℝ))) ∧
    (∀ a b : ℤ, hAt s i = (a : ℚ) / 100 → hAt s (i + 1) = (b : ℚ) / 100 → 2 ≤ |a - b| →
      ∃ v : ℝ, getTideHeightAtTime ((tmAt s i + tmAt s (i + 1)) / 2) s = some v ∧
        min ((hAt s i : ℝ)) ((hAt s (i + 1) : ℝ)) < v ∧
        v < max ((hAt s i : ℝ)) ((hAt s (i + 1) : ℝ))) := by
  have h0 : ¬ s.length = 0 := by omega
  have hsorted : List.Sorted decLe s := hs.sorted
  have hstep : tmAt s i < tmAt s (i + 1) := tmAt_lt_of_strict hs (Nat.lt_succ_self i) hi
  have hmain : ∀ u : ℚ, tmAt s i < u → u < tmAt s (i + 1) →
      getTideHeightAtTime u s =
        some (jsToFixed2 (cosInterp (tmAt s i) (hAt s i)
          (tmAt s (i + 1)) (hAt s (i + 1)) u)) := by
    intro u hu1 hu2
    have hbm : ¬ u ≤ tmAt s 0 := by
      have h00 : tmAt s 0 ≤ tmAt s i := tmAt_le_of_sorted hsorted (Nat.zero_le i) (by omega)
      exact not_le.mpr (lt_of_le_of_lt h00 hu1)
    have ham : ¬ tmAt s (s.length - 1) ≤ u := by
      have h11 : tmAt s (i + 1) ≤ tmAt s (s.length - 1) :=
        tmAt_le_of_sorted hsorted (by omega) (by omega)
      exact not_le.mpr (lt_of_lt_of_le hu2 h11)
    have hseg : segIdx u s = i :=
      segIdx_of_strict_between u s hs i hi hu1 (le_of_lt hu2)
    have hne : tmAt s (segIdx u s + 1) - tmAt s (segIdx u s) ≠ 0 := by
      rw [hseg]
      exact sub_ne_zero.mpr (ne_of_gt hstep)
    rw [heightAt_interior_sorted u s h0 hsorted hbm ham hne, hseg]
  refine ⟨hmain t ht1 ht2, heightAt_at_event s hs i (by omega),
    heightAt_at_event s hs (i + 1) hi, ?_⟩
  intro a b ha hb habs
  have hmid1 : tmAt s i < (tmAt s i + tmAt s (i + 1)) / 2 := by linarith
  have hmid2 : (tmAt s i + tmAt s (i + 1)) / 2 < tmAt s (i + 1) := by linarith
  have hval := hmain _ hmid1 hmid2
  rw [cosInterp_mid (tmAt s i) (hAt s i) (tmAt s (i + 1)) (hAt s (i + 1))
    (ne_of_lt hstep)] at hval
  have hcast : ((hAt s i : ℝ) + (hAt s (i + 1) : ℝ)) / 2 =
      (((hAt s i + hAt s (i + 1)) / 2 : ℚ) : ℝ) := by
    push_cast
    ring
  rw [hcast, jsToFixed2_ratCast] at hval
  have hfloor : ⌊(hAt s i + hAt s (i + 1)) / 2 * 100 + 1 / 2⌋ =
      ⌊((a : ℚ) + (b : ℚ)) / 2 + 1 / 2⌋ := by
    rw [ha, hb]
    congr 1
    ring
  rw [hfloor] at hval
  refine ⟨_, hval, ?_, ?_⟩
  · have := (midpoint_round_strict a b habs).1
    have hmin : min ((hAt s i : ℝ)) ((hAt s (i + 1) : ℝ)) =
        min ((a : ℝ) / 100) ((b : ℝ) / 100) := by
      rw [ha, hb]
      push_cast
      ring_nf
    rw [hmin]
    exact this
  · have := (midpoint_round_strict a b habs).2
    have hmax : max ((hAt s i : ℝ)) ((hAt s (i + 1) : ℝ)) =
        max ((a : ℝ) / 100) ((b : ℝ) / 100) := by
      rw [ha, hb]
      push_cast
      ring_nf
    rw [hmax]
    exact this

/-- A two-event day used to instantiate the interpolation claims. -/
def eventsC1 : List TideEvent :=
  [⟨⟨5, 0⟩, 4, TideType.HIGH⟩, ⟨⟨11, 0⟩, 1 / 2, TideType.LOW⟩]

/-- Witness for C1 (amended): the high-to-low example day, queried at 8:00
and at the event endpoints and midpoint. -/
theorem C1_witness :
    getTideHeightAtTime 8 eventsC1 =
      some (jsToFixed2 (cosInterp (tmAt eventsC1 0) (hAt eventsC1 0)
        (tmAt eventsC1 1) (hAt eventsC1 1) 8)) ∧
    getTideHeightAtTime (tmAt eventsC1 0) eventsC1 =
      some (jsToFixed2 ((hAt eventsC1 0 : ℝ))) ∧
    (∃ v : ℝ, getTideHeightAtTime ((tmAt eventsC1 0 + tmAt eventsC1 1) / 2) eventsC1 = some v ∧
      min ((hAt eventsC1 0 : ℝ)) ((hAt eventsC1 1 : ℝ)) < v ∧
      v < max ((hAt eventsC1 0 : ℝ)) ((hAt eventsC1 1 : ℝ))) := by
  have h := C1_cosine_interpolation_rounded eventsC1 0 8
    (by norm_num [strictByTime, eventsC1, timeToDecimal])
    (by norm_num [eventsC1])
    (by norm_num [tmAt, eventsC1, timeToDecimal])
    (by norm_num [tmAt, eventsC1, timeToDecimal])
  exact ⟨h.1, h.2.1, h.2.2.2 400 50 (by norm_num [hAt, eventsC1])
    (by norm_num [hAt, eventsC1]) (by decide)⟩

/-- A day whose low-tide height 1.001 m is not an integer number of
hundredths. -/
def eventsC1x : List TideEvent :=
  [⟨⟨5, 0⟩, 1, TideType.HIGH⟩, ⟨⟨11, 0⟩, 1001 / 1000, TideType.LOW⟩]

/-- Counterexample to C1 as stated: at the event time 11:00 the source
returns the height rounded to two decimals (1.00), not the exact event
height 1.001, because every result passes through toFixed(2). -/
theorem C1_counterexample :
    getTideHeightAtTime 11 eventsC1x = some 1 ∧ ((1001 / 1000 : ℝ) ≠ 1) := by
  constructor
  · have hs : List.Sorted decLe eventsC1x := by
      norm_num [List.sorted_cons, decLe, eventsC1x, timeToDecimal]
    have h := heightAt_after_sorted 11 eventsC1x (by norm_num [eventsC1x]) hs
      (by norm_num [tmAt, eventsC1x, timeToDecimal])
      (by norm_num [tmAt, eventsC1x, timeToDecimal])
    have et : tmAt eventsC1x (eventsC1x.length - 1) = 11 := by
      norm_num [tmAt, eventsC1x, timeToDecimal]
    have eh : hAt eventsC1x (eventsC1x.length - 1) = 1001 / 1000 := by
      norm_num [hAt, eventsC1x]
    rw [et, eh] at h
    rw [h, cosInterp_left, jsToFixed2_ratCast]
    have hfl : ⌊(1001 / 1000 : ℚ) * 100 + 1 / 2⌋ = 100 := by
      rw [Int.floor_eq_iff]
      norm_num
    rw [hfl]
    norm_num
  · norm_num

/-- A malformed day with two events sharing the time 05:00. -/
def eventsC4 : List TideEvent :=
  [⟨⟨5, 0⟩, 4, TideType.HIGH⟩, ⟨⟨5, 0⟩, 1, TideType.LOW⟩, ⟨⟨11, 0⟩, 1 / 2, TideType.LOW⟩]

/-- Counterexample to C4 as stated: on a list with two events sharing a
time the source raises nothing; the query is interpolated against a
nondegenerate neighboring segment and an ordinary number is returned
(none, the NaN of the zero-length division, never occurs, and no
DegenerateIntervalError exists anywhere in the repository). -/
theorem C4_counterexample :
    (eventsC4.getD 0 dummyEvent).time = (eventsC4.getD 1 dummyEvent).time ∧
    getTideHeightAtTime 7 eventsC4 = some (22 / 25) := by
  refine ⟨by decide, ?_⟩
  have hs : List.Sorted decLe eventsC4 := by
    norm_num [List.sorted_cons, decLe, eventsC4, timeToDecimal]
  have hb : ¬ (7 : ℚ) ≤ tmAt eventsC4 0 := by
    norm_num [tmAt, eventsC4, timeToDecimal]
  have ha : ¬ tmAt eventsC4 (eventsC4.length - 1) ≤ 7 := by
    norm_num [tmAt, eventsC4, timeToDecimal]
  have hseg : segIdx 7 eventsC4 = 1 := by
    apply segIdx_eq 7 eventsC4 1 (by norm_num [eventsC4])
    · norm_num [segCond, eventsC4, timeToDecimal]
    · intro j hj
      interval_cases j
      norm_num [segCond, eventsC4, timeToDecimal]
  have hne : tmAt eventsC4 (segIdx 7 eventsC4 + 1) - tmAt eventsC4 (segIdx 7 eventsC4) ≠ 0 := by
    rw [hseg]
    norm_num [tmAt, eventsC4, timeToDecimal]
  rw [heightAt_interior_sorted 7 eventsC4 (by norm_num [eventsC4]) hs hb ha hne, hseg]
  have et1 : tmAt eventsC4 1 = 5 := by norm_num [tmAt, eventsC4, timeToDecimal]
  have et2 : tmAt eventsC4 (1 + 1) = 11 := by norm_num [tmAt, eventsC4, timeToDecimal]
  have eh1 : hAt eventsC4 1 = 1 := by norm_num [hAt, eventsC4]
  have eh2 : hAt eventsC4 (1 + 1) = 1 / 2 := by norm_num [hAt, eventsC4]
  rw [et1, et2, eh1, eh2]
  have hcos : cosInterp 5 1 11 (1 / 2) 7 = 7 / 8 := by
    unfold cosInterp
    have harg : Real.pi * (((7 : ℚ) : ℝ) - ((5 : ℚ) : ℝ)) / (((11 : ℚ) : ℝ) - ((5 : ℚ) : ℝ)) =
        Real.pi / 3 := by
      push_cast
      ring
    rw [harg, Real.cos_pi_div_three]
    push_cast
    norm_num
  rw [hcos]
  unfold jsToFixed2
  have hfl : ⌊(7 / 8 : ℝ) * 100 + 1 / 2⌋ = 88 := by
    have he : (7 / 8 : ℝ) * 100 + 1 / 2 = ((88 : ℤ) : ℝ) := by norm_num
    rw [he, Int.floor_intCast]
  rw [hfl]
  norm_num

/-- C4 (amended). Interpolation between two events that share a time never
happens: the scan always resolves the query against a nondegenerate
segment or a boundary extrapolation, so getTideHeightAtTime returns an
ordinary number on every input and no error (and no NaN) is ever
produced; no DegenerateIntervalError exists in the code. -/
theorem C4_no_degenerate_error (t : ℚ) (tides : List TideEvent) :
    (getTideHeightAtTime t tides).isSome :=
  heightAt_isSome t tides

/-- C10. getTideHeightAtTime is total on the degenerate inputs the spec
excludes: the empty list yields 0 for every query time, and a one-event
list still yields a value for every query time through the virtual-event
extrapolation, without throwing. -/
theorem C10_total_on_degenerate_inputs :
    (∀ t : ℚ, getTideHeightAtTime t [] = some 0) ∧
    (∀ (t : ℚ) (e : TideEvent), (getTideHeightAtTime t [e]).isSome) := by
  constructor
  · intro t
    rfl
  · intro t e
    exact heightAt_isSome t [e]

/-- C5. For a query at or before the first sorted event the source
interpolates against a virtual event exactly 6.21 hours earlier whose
height is the boundary height minus 2.5 m floored at 0 for a HIGH
boundary and plus 2.5 m for a LOW boundary; symmetrically 6.21 hours
after the last event; and at the virtual time itself the curve passes
through the (rounded) virtual height. -/
theorem C5_virtual_boundary_extrapolation (tides : List TideEvent) (t : ℚ)
    (h0 : ¬ tides.length = 0) :
    (t ≤ tmAt (sortByDec tides) 0 →
      getTideHeightAtTime t tides =
        some (jsToFixed2 (cosInterp (tmAt (sortByDec tides) 0 - 621 / 100)
          (if ((sortByDec tides).getD 0 dummyEvent).type = TideType.HIGH
            then max 0 (hAt (sortByDec tides) 0 - 5 / 2)
            else hAt (sortByDec tides) 0 + 5 / 2)
          (tmAt (sortByDec tides) 0) (hAt (sortByDec tides) 0) t))) ∧
    (¬ t ≤ tmAt (sortByDec tides) 0 →
      tmAt (sortByDec tides) ((sortByDec tides).length - 1) ≤ t →
      getTideHeightAtTime t tides =
        some (jsToFixed2 (cosInterp
          (tmAt (sortByDec tides) ((sortByDec tides).length - 1))
          (hAt (sortByDec tides) ((sortByDec tides).length - 1))
          (tmAt (sortByDec tides) ((sortByDec tides).length - 1) + 621 / 100)
          (if ((sortByDec tides).getD ((sortByDec tides).length - 1) dummyEvent).type =
              TideType.HIGH
            then max 0 (hAt (sortByDec tides) ((sortByDec tides).length - 1) - 5 / 2)
            else hAt (sortByDec tides) ((sortByDec tides).length - 1) + 5 / 2) t))) ∧
    (t = tmAt (sortByDec tides) 0 - 621 / 100 →
      getTideHeightAtTime t tides =
        some (jsToFixed2 (((if ((sortByDec tides).getD 0 dummyEvent).type = TideType.HIGH
          then max 0 (hAt (sortByDec tides) 0 - 5 / 2)
          else hAt (sortByDec tides) 0 + 5 / 2 : ℚ)) : ℝ))) := by
  refine ⟨?_, ?_, ?_⟩
  · intro hb
    exact heightAt_before t tides h0 hb
  · intro hb ha
    exact heightAt_after t tides h0 hb ha
  · intro heq
    have hb : t ≤ tmAt (sortByDec tides) 0 := by
      rw [heq]
      linarith
    have h := heightAt_before t tides h0 hb
    rw [h, heq]
    rw [cosInterp_left]
    rfl

/-- A single 08:00 high tide used to exercise both boundary branches. -/
def eventsC5 : List TideEvent :=
  [⟨⟨8, 0⟩, 3, TideType.HIGH⟩]

/-- Witness for C5: its single 3 m high tide at 08:00, queried at 02:00
(before-first branch) and 09:00 (after-last branch). -/
theorem C5_witness :
    getTideHeightAtTime 2 eventsC5 =
      some (jsToFixed2 (cosInterp (tmAt (sortByDec eventsC5) 0 - 621 / 100)
        (if ((sortByDec eventsC5).getD 0 dummyEvent).type = TideType.HIGH
          then max 0 (hAt (sortByDec eventsC5) 0 - 5 / 2)
          else hAt (sortByDec eventsC5) 0 + 5 / 2)
        (tmAt (sortByDec eventsC5) 0) (hAt (sortByDec eventsC5) 0) 2)) ∧
    getTideHeightAtTime 9 eventsC5 =
      some (jsToFixed2 (cosInterp
        (tmAt (sortByDec eventsC5) ((sortByDec eventsC5).length - 1))
        (hAt (sortByDec eventsC5) ((sortByDec eventsC5).length - 1))
        (tmAt (sortByDec eventsC5) ((sortByDec eventsC5).length - 1) + 621 / 100)
        (if ((sortByDec eventsC5).getD ((sortByDec eventsC5).length - 1) dummyEvent).type =
            TideType.HIGH
          then max 0 (hAt (sortByDec eventsC5) ((sortByDec eventsC5).length - 1) - 5 / 2)
          else hAt (sortByDec eventsC5) ((sortByDec eventsC5).length - 1) + 5 / 2) 9)) :=
  ⟨(C5_virtual_boundary_extrapolation eventsC5 2 (by norm_num [eventsC5])).1
     (by norm_num [tmAt, sortByDec, List.insertionSort, List.orderedInsert, eventsC5,
       timeToDecimal]),
   (C5_virtual_boundary_extrapolation eventsC5 9 (by norm_num [eventsC5])).2.1
     (by norm_num [tmAt, sortByDec, List.insertionSort, List.orderedInsert, eventsC5,
       timeToDecimal])
     (by norm_num [tmAt, sortByDec, List.insertionSort, List.orderedInsert, eventsC5,
       timeToDecimal])⟩

/-- C8. generateTideCurve returns the empty sequence for fewer than 2
events; otherwise it returns exactly the 97 samples of getTideHeightAtTime
at 0, 0.25, ..., 24 (both endpoints included), in strictly ascending time
order, as a pure function of the event list. -/
theorem C8_sampleCurve (tides : List TideEvent) :
    (tides.length < 2 → generateTideCurve tides = []) ∧
    (2 ≤ tides.length →
      (generateTideCurve tides).length = 97 ∧
      (∀ k : ℕ, k < 97 →
        ((generateTideCurve tides).getD k ⟨0, none⟩).time = (k : ℚ) / 4 ∧
        ((generateTideCurve tides).getD k ⟨0, none⟩).height =
          getTideHeightAtTime ((k : ℚ) / 4) tides) ∧
      List.Pairwise (fun p q : CurvePoint => p.time < q.time) (generateTideCurve tides)) := by
  constructor
  · intro hlt
    unfold generateTideCurve
    rw [if_pos hlt]
  · intro hge
    have hnot : ¬ tides.length < 2 := not_lt.mpr hge
    unfold generateTideCurve
    rw [if_neg hnot]
    refine ⟨by rw [List.length_map, List.length_range], ?_, ?_⟩
    · intro k hk
      have hk2 : k < ((List.range 97).map
          (fun n : ℕ =>
            (⟨(n : ℚ) / 4, getTideHeightAtTime ((n : ℚ) / 4) tides⟩ : CurvePoint))).length := by
        rw [List.length_map, List.length_range]
        exact hk
      rw [List.getD_eq_getElem _ _ hk2, List.getElem_map, List.getElem_range]
      exact ⟨rfl, rfl⟩
    · rw [List.pairwise_map]
      refine List.Pairwise.imp ?_ (List.pairwise_lt_range 97)
      intro a b hab
      show (a : ℚ) / 4 < (b : ℚ) / 4
      have hq : (a : ℚ) < (b : ℚ) := by exact_mod_cast hab
      linarith

/-- Witness for C8: a one-event list yields the empty curve while the mock
tide table yields a 97-sample curve whose fifth sample sits at 1:00. -/
theorem C8_witness :
    generateTideCurve eventsC5 = [] ∧
    (generateTideCurve MOCK_TIDES).length = 97 ∧
    ((generateTideCurve MOCK_TIDES).getD 4 ⟨0, none⟩).time = 1 ∧
    ((generateTideCurve MOCK_TIDES).getD 4 ⟨0, none⟩).height =
      getTideHeightAtTime 1 MOCK_TIDES := by
  have h1 := (C8_sampleCurve eventsC5).1 (by decide)
  have h2 := (C8_sampleCurve MOCK_TIDES).2 (by decide)
  have h3 := h2.2.1 4 (by decide)
  refine ⟨h1, h2.1, ?_, ?_⟩
  · rw [h3.1]
    norm_num
  · rw [h3.2]
    norm_num

/-! Proof infrastructure for the source-resolution pipeline. -/

theorem length_sortByTimeKey (l : List TideEvent) :
    (sortByTimeKey l).length = l.length :=
  List.length_insertionSort hmLe l

theorem perm_sortByTimeKey (l : List TideEvent) :
    (sortByTimeKey l).Perm l :=
  List.perm_insertionSort hmLe l

theorem calculateApproximateTides_length (lat lng : ℚ) (d : DateModel) :
    (calculateApproximateTides lat lng d).length = 4 := by
  unfold calculateApproximateTides
  rw [length_sortByTimeKey, List.length_map, List.length_range]

theorem calculateApproximateTides_ne_nil (lat lng : ℚ) (d : DateModel) :
    calculateApproximateTides lat lng d ≠ [] := by
  intro h
  have := calculateApproximateTides_length lat lng d
  rw [h] at this
  simp at this

theorem calculateApproximateTides_not_isEmpty (lat lng : ℚ) (d : DateModel) :
    (calculateApproximateTides lat lng d).isEmpty = false := by
  rw [Bool.eq_false_iff, Ne, List.isEmpty_iff]
  exact calculateApproximateTides_ne_nil lat lng d

theorem calculateApproximateTides_counts (lat lng : ℚ) (d : DateModel) :
    (calculateApproximateTides lat lng d).countP (fun e => e.type == TideType.HIGH) = 2 ∧
    (calculateApproximateTides lat lng d).countP (fun e => e.type == TideType.LOW) = 2 := by
  unfold calculateApproximateTides
  constructor <;>
  · rw [sortByTimeKey, (List.perm_insertionSort hmLe _).countP_eq]
    rw [show List.range 4 = [0, 1, 2, 3] from by decide]
    simp [List.countP_cons]

theorem failsOutcome_some_ne (l : List TideEvent) (h : l ≠ []) :
    failsOutcome (some l) = false := by
  cases l with
  | nil => exact absurd rfl h
  | cons a t => rfl

theorem spanishStage_none (env : Env) (g : GeoData) :
    spanishStage env g none = ⟨g.name, g.lat, g.lng, none, none, none, "", none, []⟩ :=
  rfl

theorem spanishStage_success (env : Env) (g : GeoData) (p : PortResult)
    (hal : env.allowDirect = true) (ha : failsOutcome env.aemet = false) :
    spanishStage env g (some p) =
      ⟨p.name, p.lat, p.lng, some p.name, some (p.lat, p.lng), env.aemet,
        "AEMET (predicción marítima)", none, [Provider.aemet]⟩ := by
  simp [spanishStage, hal, ha]

theorem spanishStage_aemetFail (env : Env) (g : GeoData) (p : PortResult)
    (hal : env.allowDirect = true) (ha : failsOutcome env.aemet = true) :
    spanishStage env g (some p) =
      ⟨p.name, p.lat, p.lng, some p.name, some (p.lat, p.lng), env.tablademareas,
        (if failsOutcome env.tablademareas then "" else "tablademareas.com (IHM)"),
        none, [Provider.aemet, Provider.tablademareas]⟩ := by
  simp [spanishStage, hal, ha]

theorem spanishStage_noDirect (env : Env) (g : GeoData) (p : PortResult)
    (hal : env.allowDirect = false) :
    spanishStage env g (some p) =
      ⟨p.name, p.lat, p.lng, some p.name, some (p.lat, p.lng), none, "",
        some "Necesitas un proxy para consultar tablademareas.com sin CORS.", []⟩ := by
  simp [spanishStage, hal, failsOutcome]

theorem worldStage_skip (env : Env) (st : Stage) (h : failsOutcome st.tides = false) :
    worldStage env st = st := by
  simp [worldStage, h]

theorem worldStage_fetch (env : Env) (st : Stage) (h : failsOutcome st.tides = true) :
    worldStage env st =
      ⟨st.name, st.lat, st.lng, st.referenceLocationName, st.referenceCoordinates,
        env.worldtides,
        (if failsOutcome env.worldtides then st.dataSource else "WorldTides API (estimación)"),
        st.sourceError, st.trace ++ [Provider.worldtides]⟩ := by
  simp [worldStage, h]

theorem approxStage_skip (env : Env) (st : Stage) (h : failsOutcome st.tides = false) :
    approxStage env st = (st, false, none) := by
  simp [approxStage, h]

theorem approxStage_run (env : Env) (st : Stage) (h : failsOutcome st.tides = true) :
    approxStage env st =
      (⟨st.name, st.lat, st.lng, st.referenceLocationName, st.referenceCoordinates,
         some (calculateApproximateTides st.lat st.lng env.now),
         (if st.dataSource = "" then "Cálculo aproximado local" else st.dataSource),
         st.sourceError, st.trace⟩,
       true,
       some (match st.sourceError with
         | some e => "Datos aproximados por falta de respuesta de APIs (p.ej. CORS): " ++ e
         | none => "Datos aproximados calculados localmente; confirma con una fuente oficial si necesitas precisión.")) := by
  simp [approxStage, h]

theorem approxStage_ok (env : Env) (st : Stage) :
    ∃ l, (approxStage env st).1.tides = some l ∧ l.isEmpty = false := by
  by_cases h : failsOutcome st.tides = true
  · rw [approxStage_run env st h]
    exact ⟨_, rfl, calculateApproximateTides_not_isEmpty _ _ _⟩
  · have h2 : failsOutcome st.tides = false := by
      revert h
      cases failsOutcome st.tides <;> simp
    rw [approxStage_skip env st h2]
    cases ho : st.tides with
    | none =>
      rw [ho] at h2
      simp [failsOutcome] at h2
    | some l =>
      refine ⟨l, by simp [ho], ?_⟩
      rw [ho] at h2
      simpa [failsOutcome] using h2

theorem pipeline_tides_ok (env : Env) (q : String) :
    ∃ l, (pipelineStage env q).1.tides = some l ∧ l.isEmpty = false := by
  simp only [pipelineStage]
  exact approxStage_ok env _

theorem fetchTideDataBody_match (env : Env) (q : String) :
    fetchTideDataBody env q =
      (match (pipelineStage env q).1.tides with
       | none => Except.error ()
       | some tides =>
         if tides.isEmpty then Except.error ()
         else
           Except.ok (assembleSnapshot env q (pipelineStage env q).1
             (pipelineStage env q).2.1 (pipelineStage env q).2.2 tides,
             (pipelineStage env q).1.trace)) :=
  rfl

theorem fetchTideDataBody_eq_ok (env : Env) (q : String) (l : List TideEvent)
    (hl : (pipelineStage env q).1.tides = some l) (hne : l.isEmpty = false) :
    fetchTideDataBody env q =
      Except.ok (assembleSnapshot env q (pipelineStage env q).1 (pipelineStage env q).2.1
        (pipelineStage env q).2.2 l, (pipelineStage env q).1.trace) := by
  rw [fetchTideDataBody_match]
  generalize hP : pipelineStage env q = P at hl ⊢
  rw [hl]
  simp [hne]

theorem fetchTideData_eq (env : Env) (q : String) :
    ∃ l, (pipelineStage env q).1.tides = some l ∧ l.isEmpty = false ∧
      fetchTideData env q = assembleSnapshot env q (pipelineStage env q).1
        (pipelineStage env q).2.1 (pipelineStage env q).2.2 l ∧
      providerTrace env q = (pipelineStage env q).1.trace := by
  obtain ⟨l, hl, hne⟩ := pipeline_tides_ok env q
  refine ⟨l, hl, hne, ?_, ?_⟩
  · unfold fetchTideData
    rw [fetchTideDataBody_eq_ok env q l hl hne]
  · unfold providerTrace
    rw [fetchTideDataBody_eq_ok env q l hl hne]

theorem foldl_max_mem : ∀ (t : List ℚ) (h : ℚ), t.foldl max h ∈ h :: t := by
  intro t
  induction t with
  | nil => intro h; simp
  | cons a t ih =>
    intro h
    simp only [List.foldl_cons]
    have hm := ih (max h a)
    rcases List.mem_cons.mp hm with he | hmem
    · rcases max_choice h a with hc | hc
      · rw [he, hc]
        exact List.mem_cons_self _ _
      · rw [he, hc]
        exact List.mem_cons.mpr (Or.inr (List.mem_cons_self _ _))
    · exact List.mem_cons.mpr (Or.inr (List.mem_cons.mpr (Or.inr hmem)))

theorem le_foldl_max : ∀ (t : List ℚ) (h x : ℚ), x ∈ h :: t → x ≤ t.foldl max h := by
  intro t
  induction t with
  | nil =>
    intro h x hx
    simp at hx
    simp [hx]
  | cons a t ih =>
    intro h x hx
    simp only [List.foldl_cons]
    rcases List.mem_cons.mp hx with he | hm
    · subst he
      exact le_trans (le_max_left x a) (ih (max x a) (max x a) (List.mem_cons_self _ _))
    · rcases List.mem_cons.mp hm with he | hm2
      · subst he
        exact le_trans (le_max_right h x) (ih (max h x) (max h x) (List.mem_cons_self _ _))
      · exact ih (max h a) x (List.mem_cons.mpr (Or.inr hm2))

theorem foldl_min_mem : ∀ (t : List ℚ) (h : ℚ), t.foldl min h ∈ h :: t := by
  intro t
  induction t with
  | nil => intro h; simp
  | cons a t ih =>
    intro h
    simp only [List.foldl_cons]
    have hm := ih (min h a)
    rcases List.mem_cons.mp hm with he | hmem
    · rcases min_choice h a with hc | hc
      · rw [he, hc]
        exact List.mem_cons_self _ _
      · rw [he, hc]
        exact List.mem_cons.mpr (Or.inr (List.mem_cons_self _ _))
    · exact List.mem_cons.mpr (Or.inr (List.mem_cons.mpr (Or.inr hmem)))

theorem foldl_min_le : ∀ (t : List ℚ) (h x : ℚ), x ∈ h :: t → t.foldl min h ≤ x := by
  intro t
  induction t with
  | nil =>
    intro h x hx
    simp at hx
    simp [hx]
  | cons a t ih =>
    intro h x hx
    simp only [List.foldl_cons]
    rcases List.mem_cons.mp hx with he | hm
    · subst he
      exact le_trans (ih (min x a) (min x a) (List.mem_cons_self _ _)) (min_le_left x a)
    · rcases List.mem_cons.mp hm with he | hm2
      · subst he
        exact le_trans (ih (min h x) (min h x) (List.mem_cons_self _ _)) (min_le_right h x)
      · exact ih (min h a) x (List.mem_cons.mpr (Or.inr hm2))

theorem jsMaxList_mem (l : List ℚ) (h : l ≠ []) : jsMaxList l ∈ l := by
  cases l with
  | nil => exact absurd rfl h
  | cons a t => exact foldl_max_mem t a

theorem le_jsMaxList (l : List ℚ) (x : ℚ) (hx : x ∈ l) : x ≤ jsMaxList l := by
  cases l with
  | nil => simp at hx
  | cons a t => exact le_foldl_max t a x hx

theorem jsMinList_mem (l : List ℚ) (h : l ≠ []) : jsMinList l ∈ l := by
  cases l with
  | nil => exact absurd rfl h
  | cons a t => exact foldl_min_mem t a

theorem jsMinList_le (l : List ℚ) (x : ℚ) (hx : x ∈ l) : jsMinList l ≤ x := by
  cases l with
  | nil => simp at hx
  | cons a t => exact foldl_min_le t a x hx

theorem jsMaxList_perm (l1 l2 : List ℚ) (h : l1.Perm l2) : jsMaxList l1 = jsMaxList l2 := by
  cases l1 with
  | nil =>
    have : l2 = [] := h.nil_eq.symm
    rw [this]
  | cons a t =>
    have hne1 : (a :: t) ≠ [] := by simp
    have hne2 : l2 ≠ [] := by
      intro hc
      rw [hc] at h
      exact absurd h.symm.nil_eq (by simp)
    apply le_antisymm
    · exact le_jsMaxList l2 _ (h.mem_iff.mp (jsMaxList_mem _ hne1))
    · exact le_jsMaxList (a :: t) _ (h.mem_iff.mpr (jsMaxList_mem l2 hne2))

theorem jsMinList_perm (l1 l2 : List ℚ) (h : l1.Perm l2) : jsMinList l1 = jsMinList l2 := by
  cases l1 with
  | nil =>
    have : l2 = [] := h.nil_eq.symm
    rw [this]
  | cons a t =>
    have hne1 : (a :: t) ≠ [] := by simp
    have hne2 : l2 ≠ [] := by
      intro hc
      rw [hc] at h
      exact absurd h.symm.nil_eq (by simp)
    apply le_antisymm
    · exact jsMinList_le (a :: t) _ (h.mem_iff.mpr (jsMinList_mem l2 hne2))
    · exact jsMinList_le l2 _ (h.mem_iff.mp (jsMinList_mem _ hne1))

theorem coefficientOf_perm (l1 l2 : List TideEvent) (h : l1.Perm l2) :
    coefficientOf l1 = coefficientOf l2 := by
  simp only [coefficientOf]
  rw [jsMaxList_perm _ _ (h.map (fun t => t.height)), jsMinList_perm _ _ (h.map (fun t => t.height))]

theorem coefficientOf_bounds (l : List TideEvent) :
    20 ≤ coefficientOf l ∧ coefficientOf l ≤ 120 := by
  unfold coefficientOf
  constructor
  · exact le_min (by norm_num) (le_max_left 20 _)
  · exact min_le_left 120 _

theorem assembleSnapshot_isApproximate (env : Env) (q : String) (st : Stage) (ia : Bool)
    (d : Option String) (tides : List TideEvent) :
    (assembleSnapshot env q st ia d tides).isApproximate = ia :=
  rfl

theorem assembleSnapshot_dataDisclaimer (env : Env) (q : String) (st : Stage) (ia : Bool)
    (d : Option String) (tides : List TideEvent) :
    (assembleSnapshot env q st ia d tides).dataDisclaimer =
      (if ia ∧ d = none then
        some "Datos aproximados generados al no disponer de predicción oficial en este entorno."
      else d) :=
  rfl

theorem assembleSnapshot_tides (env : Env) (q : String) (st : Stage) (ia : Bool)
    (d : Option String) (tides : List TideEvent) :
    (assembleSnapshot env q st ia d tides).tides = sortByTimeKey tides :=
  rfl

theorem assembleSnapshot_coefficient (env : Env) (q : String) (st : Stage) (ia : Bool)
    (d : Option String) (tides : List TideEvent) :
    (assembleSnapshot env q st ia d tides).coefficient = coefficientOf tides :=
  rfl

theorem assembleSnapshot_requestedCoordinates (env : Env) (q : String) (st : Stage) (ia : Bool)
    (d : Option String) (tides : List TideEvent) :
    (assembleSnapshot env q st ia d tides).requestedCoordinates =
      ((resolveGeo env q).lat, (resolveGeo env q).lng) :=
  rfl

theorem assembleSnapshot_dataSource (env : Env) (q : String) (st : Stage) (ia : Bool)
    (d : Option String) (tides : List TideEvent) :
    (assembleSnapshot env q st ia d tides).dataSource =
      (if st.dataSource = "" then "Origen no determinado" else st.dataSource) :=
  rfl

theorem spanishStage_fails (env : Env) (g : GeoData) (port : Option PortResult)
    (ha : failsOutcome env.aemet = true) (ht : failsOutcome env.tablademareas = true) :
    failsOutcome (spanishStage env g port).tides = true := by
  cases port with
  | none =>
    rw [spanishStage_none]
    rfl
  | some p =>
    by_cases hal : env.allowDirect = true
    · rw [spanishStage_aemetFail env g p hal ha]
      exact ht
    · have hal2 : env.allowDirect = false := by
        revert hal
        cases env.allowDirect <;> simp
      rw [spanishStage_noDirect env g p hal2]
      rfl

theorem worldStage_fails (env : Env) (st : Stage) (h : failsOutcome st.tides = true)
    (hw : failsOutcome env.worldtides = true) :
    failsOutcome (worldStage env st).tides = true := by
  rw [worldStage_fetch env st h]
  exact hw

theorem approx_disclaimer_ne (so : Option String) :
    (match so with
      | some e => "Datos aproximados por falta de respuesta de APIs (p.ej. CORS): " ++ e
      | none => "Datos aproximados calculados localmente; confirma con una fuente oficial si necesitas precisión.") ≠ "" := by
  cases so with
  | none => decide
  | some e =>
    intro hcon
    have hlen := congrArg String.length hcon
    rw [String.length_append] at hlen
    have hz : ("Datos aproximados por falta de respuesta de APIs (p.ej. CORS): ").length = 63 := by
      decide
    rw [hz] at hlen
    have hz2 : ("" : String).length = 0 := by decide
    rw [hz2] at hlen
    omega

/-- C2. With every provider failing (error, timeout or zero events), the
orchestrator still returns a snapshot flagged isApproximate with a
nonempty disclaimer and a 4-event (hence at least 2-event) tide list; the
approximation generator always produces exactly 4 events, 2 HIGH and
2 LOW; and the body never lets an error escape: it returns the very
snapshot the caller receives. -/
theorem C2_total_provider_failure (env : Env) (q : String)
    (ha : failsOutcome env.aemet = true)
    (ht : failsOutcome env.tablademareas = true)
    (hw : failsOutcome env.worldtides = true) :
    (fetchTideData env q).isApproximate = true ∧
    (∃ s, (fetchTideData env q).dataDisclaimer = some s ∧ s ≠ "") ∧
    (fetchTideData env q).tides ≠ [] ∧ 2 ≤ (fetchTideData env q).tides.length ∧
    (∀ (lat lng : ℚ) (d : DateModel),
      (calculateApproximateTides lat lng d).length = 4 ∧
      (calculateApproximateTides lat lng d).countP (fun e => e.type == TideType.HIGH) = 2 ∧
      (calculateApproximateTides lat lng d).countP (fun e => e.type == TideType.LOW) = 2) ∧
    (∃ tr, fetchTideDataBody env q = Except.ok (fetchTideData env q, tr)) := by
  have hsp := spanishStage_fails env (resolveGeo env q)
    (findNearestSpanishPort (resolveGeo env q).lat (resolveGeo env q).lng
      (some (resolveGeo env q).name)) ha ht
  have hwf := worldStage_fails env _ hsp hw
  have happrox := approxStage_run env _ hwf
  have hpipe : pipelineStage env q =
      approxStage env (worldStage env (spanishStage env (resolveGeo env q)
        (findNearestSpanishPort (resolveGeo env q).lat (resolveGeo env q).lng
          (some (resolveGeo env q).name)))) := rfl
  obtain ⟨l, hl, hne, hfd, htr⟩ := fetchTideData_eq env q
  have hl2 := hl
  rw [hpipe, happrox] at hl2
  have hleq : l = calculateApproximateTides
      (worldStage env (spanishStage env (resolveGeo env q)
        (findNearestSpanishPort (resolveGeo env q).lat (resolveGeo env q).lng
          (some (resolveGeo env q).name)))).lat
      (worldStage env (spanishStage env (resolveGeo env q)
        (findNearestSpanishPort (resolveGeo env q).lat (resolveGeo env q).lng
          (some (resolveGeo env q).name)))).lng env.now := by
    have := hl2
    simp only [Option.some.injEq] at this
    exact this.symm
  have hia : (pipelineStage env q).2.1 = true := by
    rw [hpipe, happrox]
  have hdisc : (pipelineStage env q).2.2 =
      some (match (worldStage env (spanishStage env (resolveGeo env q)
          (findNearestSpanishPort (resolveGeo env q).lat (resolveGeo env q).lng
            (some (resolveGeo env q).name)))).sourceError with
        | some e => "Datos aproximados por falta de respuesta de APIs (p.ej. CORS): " ++ e
        | none => "Datos aproximados calculados localmente; confirma con una fuente oficial si necesitas precisión.") := by
    rw [hpipe, happrox]
  refine ⟨?_, ?_, ?_, ?_, ?_, ?_⟩
  · rw [hfd, assembleSnapshot_isApproximate, hia]
  · have heq2 : (fetchTideData env q).dataDisclaimer =
        some (match (worldStage env (spanishStage env (resolveGeo env q)
            (findNearestSpanishPort (resolveGeo env q).lat (resolveGeo env q).lng
              (some (resolveGeo env q).name)))).sourceError with
          | some e => "Datos aproximados por falta de respuesta de APIs (p.ej. CORS): " ++ e
          | none => "Datos aproximados calculados localmente; confirma con una fuente oficial si necesitas precisión.") := by
      rw [hfd, assembleSnapshot_dataDisclaimer, hia, hdisc]
      rw [if_neg (by simp)]
    exact ⟨_, heq2, approx_disclaimer_ne _⟩
  · rw [hfd, assembleSnapshot_tides]
    intro hcon
    have := congrArg List.length hcon
    rw [length_sortByTimeKey, hleq, calculateApproximateTides_length] at this
    simp at this
  · rw [hfd, assembleSnapshot_tides, length_sortByTimeKey, hleq,
      calculateApproximateTides_length]
    omega
  · intro lat lng d
    exact ⟨calculateApproximateTides_length lat lng d,
      (calculateApproximateTides_counts lat lng d).1,
      (calculateApproximateTides_counts lat lng d).2⟩
  · exact ⟨(pipelineStage env q).1.trace, by
      rw [fetchTideDataBody_eq_ok env q l hl hne, hfd]⟩

/-- C6. The tidal coefficient is always the clamped rounded range formula
and always lies in 20..120; the snapshot the orchestrator returns always
carries exactly the coefficient of its own realized event list. -/
theorem C6_coefficient_clamped (l : List TideEvent) (env : Env) (q : String)
    (hl : l ≠ []) :
    (20 ≤ coefficientOf l ∧ coefficientOf l ≤ 120) ∧
    (fetchTideData env q).coefficient = coefficientOf (fetchTideData env q).tides ∧
    20 ≤ (fetchTideData env q).coefficient ∧ (fetchTideData env q).coefficient ≤ 120 := by
  obtain ⟨l2, hl2, hne2, hfd, htr⟩ := fetchTideData_eq env q
  refine ⟨coefficientOf_bounds l, ?_, ?_, ?_⟩
  · rw [hfd, assembleSnapshot_coefficient, assembleSnapshot_tides]
    exact (coefficientOf_perm _ _ (perm_sortByTimeKey l2)).symm
  · rw [hfd, assembleSnapshot_coefficient]
    exact (coefficientOf_bounds l2).1
  · rw [hfd, assembleSnapshot_coefficient]
    exact (coefficientOf_bounds l2).2

theorem pipeline_eq_of_port (env : Env) (q : String) (p : PortResult)
    (hport : findNearestSpanishPort (resolveGeo env q).lat (resolveGeo env q).lng
      (some (resolveGeo env q).name) = some p) :
    pipelineStage env q =
      approxStage env (worldStage env (spanishStage env (resolveGeo env q) (some p))) := by
  have h : pipelineStage env q =
      approxStage env (worldStage env (spanishStage env (resolveGeo env q)
        (findNearestSpanishPort (resolveGeo env q).lat (resolveGeo env q).lng
          (some (resolveGeo env q).name)))) := rfl
  rw [h, hport]

/-- C3 (amended). When a Spanish port resolves and direct access is
allowed, the provider chain is consulted in the fixed order AEMET
(meteorological agency) then tablademareas.com (hydrographic/IHM) then
WorldTides (commercial): a later provider is consulted exactly when every
earlier one failed (error, timeout or zero events), and the snapshot
events are exactly the sorted list of the first provider that returned at
least one event, with nothing merged from any other provider. -/
theorem C3_provider_chain (env : Env) (q : String)
    (hp : (findNearestSpanishPort (resolveGeo env q).lat (resolveGeo env q).lng
      (some (resolveGeo env q).name)).isSome = true)
    (hal : env.allowDirect = true) :
    providerTrace env q =
      [Provider.aemet] ++
      (if failsOutcome env.aemet then [Provider.tablademareas] else []) ++
      (if failsOutcome env.aemet ∧ failsOutcome env.tablademareas
        then [Provider.worldtides] else []) ∧
    (∀ l, env.aemet = some l → l ≠ [] →
      (fetchTideData env q).tides = sortByTimeKey l ∧
      (fetchTideData env q).dataSource = "AEMET (predicción marítima)") ∧
    (∀ l, failsOutcome env.aemet = true → env.tablademareas = some l → l ≠ [] →
      (fetchTideData env q).tides = sortByTimeKey l ∧
      (fetchTideData env q).dataSource = "tablademareas.com (IHM)") ∧
    (∀ l, failsOutcome env.aemet = true → failsOutcome env.tablademareas = true →
      env.worldtides = some l → l ≠ [] →
      (fetchTideData env q).tides = sortByTimeKey l ∧
      (fetchTideData env q).dataSource = "WorldTides API (estimación)") := by
  obtain ⟨p, hport⟩ := Option.isSome_iff_exists.mp hp
  have hpipe0 := pipeline_eq_of_port env q p hport
  obtain ⟨l2, hl2, hne2, hfd, htr⟩ := fetchTideData_eq env q
  rcases (Bool.eq_false_or_eq_true (failsOutcome env.aemet)).symm with hfa | hfa
  · have hsp := spanishStage_success env (resolveGeo env q) p hal hfa
    have hpipe : pipelineStage env q =
        (⟨p.name, p.lat, p.lng, some p.name, some (p.lat, p.lng), env.aemet,
          "AEMET (predicción marítima)", none, [Provider.aemet]⟩, false, none) := by
      rw [hpipe0, hsp]
      simp [worldStage, approxStage, hfa]
    have hds : (pipelineStage env q).1.dataSource = "AEMET (predicción marítima)" := by
      simp [hpipe]
    have hta : env.aemet = some l2 := by
      have h1 : (pipelineStage env q).1.tides = some l2 := hl2
      rw [hpipe] at h1
      exact h1
    refine ⟨?_, ?_, ?_, ?_⟩
    · rw [htr, hpipe]
      simp [hfa]
    · intro l hla hlne
      have hll : l2 = l := by
        rw [hla] at hta
        exact (Option.some_inj.mp hta).symm
      constructor
      · rw [hfd, assembleSnapshot_tides, hll]
      · rw [hfd, assembleSnapshot_dataSource, hds]
        rw [if_neg (by decide)]
    · intro l h1 _ _
      rw [hfa] at h1
      exact absurd h1 (by decide)
    · intro l h1 _ _ _
      rw [hfa] at h1
      exact absurd h1 (by decide)
  · rcases (Bool.eq_false_or_eq_true (failsOutcome env.tablademareas)).symm with hft | hft
    · have hsp := spanishStage_aemetFail env (resolveGeo env q) p hal hfa
      have hpipe : pipelineStage env q =
          (⟨p.name, p.lat, p.lng, some p.name, some (p.lat, p.lng), env.tablademareas,
            "tablademareas.com (IHM)", none, [Provider.aemet, Provider.tablademareas]⟩,
           false, none) := by
        rw [hpipe0, hsp]
        simp [worldStage, approxStage, hft]
      have hds : (pipelineStage env q).1.dataSource = "tablademareas.com (IHM)" := by
        simp [hpipe]
      have hta : env.tablademareas = some l2 := by
        have h1 : (pipelineStage env q).1.tides = some l2 := hl2
        rw [hpipe] at h1
        exact h1
      refine ⟨?_, ?_, ?_, ?_⟩
      · rw [htr, hpipe]
        simp [hfa, hft]
      · intro l hla hlne
        rw [hla, failsOutcome_some_ne l hlne] at hfa
        exact absurd hfa (by decide)
      · intro l _ hla hlne
        have hll : l2 = l := by
          rw [hla] at hta
          exact (Option.some_inj.mp hta).symm
        constructor
        · rw [hfd, assembleSnapshot_tides, hll]
        · rw [hfd, assembleSnapshot_dataSource, hds]
          rw [if_neg (by decide)]
      · intro l _ h2 _ _
        rw [hft] at h2
        exact absurd h2 (by decide)
    · rcases (Bool.eq_false_or_eq_true (failsOutcome env.worldtides)).symm with hfw | hfw
      · have hsp := spanishStage_aemetFail env (resolveGeo env q) p hal hfa
        have hpipe : pipelineStage env q =
            (⟨p.name, p.lat, p.lng, some p.name, some (p.lat, p.lng), env.worldtides,
              "WorldTides API (estimación)", none,
              [Provider.aemet, Provider.tablademareas, Provider.worldtides]⟩,
             false, none) := by
          rw [hpipe0, hsp]
          simp [worldStage, approxStage, hft, hfw]
        have hds : (pipelineStage env q).1.dataSource = "WorldTides API (estimación)" := by
          simp [hpipe]
        have hta : env.worldtides = some l2 := by
          have h1 : (pipelineStage env q).1.tides = some l2 := hl2
          rw [hpipe] at h1
          exact h1
        refine ⟨?_, ?_, ?_, ?_⟩
        · rw [htr, hpipe]
          simp [hfa, hft]
        · intro l hla hlne
          rw [hla, failsOutcome_some_ne l hlne] at hfa
          exact absurd hfa (by decide)
        · intro l _ hla hlne
          rw [hla, failsOutcome_some_ne l hlne] at hft
          exact absurd hft (by decide)
        · intro l _ _ hla hlne
          have hll : l2 = l := by
            rw [hla] at hta
            exact (Option.some_inj.mp hta).symm
          constructor
          · rw [hfd, assembleSnapshot_tides, hll]
          · rw [hfd, assembleSnapshot_dataSource, hds]
            rw [if_neg (by decide)]
      · have hsp := spanishStage_aemetFail env (resolveGeo env q) p hal hfa
        have hpipe : pipelineStage env q =
            (⟨p.name, p.lat, p.lng, some p.name, some (p.lat, p.lng),
              some (calculateApproximateTides p.lat p.lng env.now),
              "Cálculo aproximado local", none,
              [Provider.aemet, Provider.tablademareas, Provider.worldtides]⟩,
             true,
             some "Datos aproximados calculados localmente; confirma con una fuente oficial si necesitas precisión.") := by
          rw [hpipe0, hsp]
          simp [worldStage, approxStage, hft, hfw]
        refine ⟨?_, ?_, ?_, ?_⟩
        · rw [htr, hpipe]
          simp [hfa, hft]
        · intro l hla hlne
          rw [hla, failsOutcome_some_ne l hlne] at hfa
          exact absurd hfa (by decide)
        · intro l _ hla hlne
          rw [hla, failsOutcome_some_ne l hlne] at hft
          exact absurd hft (by decide)
        · intro l _ _ hla hlne
          rw [hla, failsOutcome_some_ne l hlne] at hfw
          exact absurd hfw (by decide)


/-- An environment in which the geocoder finds Vigo and AEMET delivers the
mock four-event table; the later providers are never needed. -/
def envC3 : Env :=
  ⟨none, some ⟨422406/10000, -87206/10000, "Vigo"⟩, ⟨"07:00", "20:00"⟩,
   some MOCK_TIDES, none, none, true, ⟨1704931200000, 9, 30⟩, "hoy"⟩

theorem C3_witness :
    providerTrace envC3 "Vigo" =
      [Provider.aemet] ++
      (if failsOutcome envC3.aemet then [Provider.tablademareas] else []) ++
      (if failsOutcome envC3.aemet ∧ failsOutcome envC3.tablademareas
        then [Provider.worldtides] else []) ∧
    (fetchTideData envC3 "Vigo").tides = sortByTimeKey MOCK_TIDES ∧
    (fetchTideData envC3 "Vigo").dataSource = "AEMET (predicción marítima)" := by
  have h := C3_provider_chain envC3 "Vigo" rfl rfl
  exact ⟨h.1, (h.2.1 MOCK_TIDES rfl (by decide)).1, (h.2.1 MOCK_TIDES rfl (by decide)).2⟩

/-- Counterexample to the claimed order: the chain starts with AEMET, the
meteorological agency, not with a hydrographic source; with AEMET
succeeding, the trace is exactly AEMET and the hydrographic source
tablademareas is never consulted. -/
theorem C3_counterexample :
    providerTrace envC3 "Vigo" = [Provider.aemet] ∧
    Provider.tablademareas ∉ providerTrace envC3 "Vigo" ∧
    (fetchTideData envC3 "Vigo").dataSource = "AEMET (predicción marítima)" := by
  have hport : findNearestSpanishPort (resolveGeo envC3 "Vigo").lat
      (resolveGeo envC3 "Vigo").lng (some (resolveGeo envC3 "Vigo").name) =
      some ⟨"Vigo", 422406/10000, -87206/10000, some "36057", none⟩ := rfl
  have hfa : failsOutcome envC3.aemet = false := rfl
  have hpipe0 := pipeline_eq_of_port envC3 "Vigo" _ hport
  have hsp := spanishStage_success envC3 (resolveGeo envC3 "Vigo")
    ⟨"Vigo", 422406/10000, -87206/10000, some "36057", none⟩ rfl hfa
  have hpipe : pipelineStage envC3 "Vigo" =
      (⟨"Vigo", 422406/10000, -87206/10000, some "Vigo",
        some (422406/10000, -87206/10000), envC3.aemet,
        "AEMET (predicción marítima)", none, [Provider.aemet]⟩, false, none) := by
    rw [hpipe0, hsp]
    simp [worldStage, approxStage, hfa]
  obtain ⟨l2, hl2, hne2, hfd, htr⟩ := fetchTideData_eq envC3 "Vigo"
  have htrv : providerTrace envC3 "Vigo" = [Provider.aemet] := by
    simp [htr, hpipe]
  refine ⟨htrv, ?_, ?_⟩
  · rw [htrv]
    decide
  · have hds : (pipelineStage envC3 "Vigo").1.dataSource =
        "AEMET (predicción marítima)" := by
      simp [hpipe]
    rw [hfd, assembleSnapshot_dataSource, hds, if_neg (by decide)]

/-- An environment in which the geocoder and every provider fail. -/
def envFail : Env :=
  ⟨none, none, ⟨"07:00", "20:00"⟩, none, none, none, true, ⟨1704931200000, 9, 30⟩, "hoy"⟩

theorem C2_witness :
    (fetchTideData envFail "").isApproximate = true ∧
    (fetchTideData envFail "").tides ≠ [] ∧
    2 ≤ (fetchTideData envFail "").tides.length := by
  have h := C2_total_provider_failure envFail "" rfl rfl rfl
  exact ⟨h.1, h.2.2.1, h.2.2.2.1⟩

theorem C6_witness :
    (20 ≤ coefficientOf MOCK_TIDES ∧ coefficientOf MOCK_TIDES ≤ 120) ∧
    (fetchTideData envFail "").coefficient =
      coefficientOf (fetchTideData envFail "").tides ∧
    20 ≤ (fetchTideData envFail "").coefficient ∧
    (fetchTideData envFail "").coefficient ≤ 120 :=
  C6_coefficient_clamped MOCK_TIDES envFail "" (by decide)

/-! Proof infrastructure for the station resolver. -/

theorem euclidDeg_self (lat lng : ℚ) : euclidDeg lat lng lat lng = 0 := by
  simp [euclidDeg]

theorem euclidDeg_nonneg (lat lng plat plng : ℚ) : 0 ≤ euclidDeg lat lng plat plng :=
  Real.sqrt_nonneg _

theorem findNearest_some (lat lng : ℚ) (nm : String) :
    findNearestSpanishPort lat lng (some nm) =
      (if nm = "" then
        (nearestFold lat lng (SPANISH_PORT_MAPPING.map Prod.snd)).map
          (fun a => (⟨a.name, a.lat, a.lng, none, some a.distance⟩ : PortResult))
      else
        match List.lookup (normalizeName nm) SPANISH_PORT_MAPPING with
        | some port => some ⟨port.name, port.lat, port.lng, port.aemetId, none⟩
        | none =>
          match SPANISH_PORT_MAPPING.find?
              (fun kv => strIncludes (normalizeName nm) kv.1 ||
                strIncludes kv.1 (normalizeName nm)) with
          | some kv => some ⟨kv.2.name, kv.2.lat, kv.2.lng, kv.2.aemetId, none⟩
          | none =>
            (nearestFold lat lng (SPANISH_PORT_MAPPING.map Prod.snd)).map
              (fun a => (⟨a.name, a.lat, a.lng, none, some a.distance⟩ : PortResult))) :=
  rfl

theorem findNearest_none (lat lng : ℚ) :
    findNearestSpanishPort lat lng none =
      (nearestFold lat lng (SPANISH_PORT_MAPPING.map Prod.snd)).map
        (fun a => (⟨a.name, a.lat, a.lng, none, some a.distance⟩ : PortResult)) :=
  rfl

theorem foldl_nearStep_strong (lat lng : ℚ) :
    ∀ (ports : List SpanishPort) (a : NearAcc),
      a.distance = euclidDeg lat lng a.lat a.lng →
      ∃ r, ports.foldl (nearStep lat lng) (some a) = some r ∧
        r.distance = euclidDeg lat lng r.lat r.lng ∧
        r.distance ≤ a.distance ∧
        ∀ p ∈ ports, r.distance ≤ euclidDeg lat lng p.lat p.lng := by
  intro ports
  induction ports with
  | nil =>
    intro a ha
    exact ⟨a, rfl, ha, le_refl _, by intro p hp; exact absurd hp (List.not_mem_nil p)⟩
  | cons q qs ih =>
    intro a ha
    by_cases hd : euclidDeg lat lng q.lat q.lng < a.distance
    · obtain ⟨r, hfold, hinv, hle, hmin⟩ :=
        ih ⟨q.name, q.lat, q.lng, euclidDeg lat lng q.lat q.lng⟩ rfl
      refine ⟨r, ?_, hinv, ?_, ?_⟩
      · rw [List.foldl_cons]
        have hns : nearStep lat lng (some a) q =
            some ⟨q.name, q.lat, q.lng, euclidDeg lat lng q.lat q.lng⟩ := by
          simp only [nearStep]
          rw [if_pos hd]
        rw [hns]
        exact hfold
      · exact le_of_lt (lt_of_le_of_lt hle hd)
      · intro p hp
        rcases List.mem_cons.mp hp with he | hm
        · rw [he]
          exact hle
        · exact hmin p hm
    · obtain ⟨r, hfold, hinv, hle, hmin⟩ := ih a ha
      refine ⟨r, ?_, hinv, hle, ?_⟩
      · rw [List.foldl_cons]
        have hns : nearStep lat lng (some a) q = some a := by
          simp only [nearStep]
          rw [if_neg hd]
        rw [hns]
        exact hfold
      · intro p hp
        rcases List.mem_cons.mp hp with he | hm
        · rw [he]
          exact le_trans hle (not_lt.mp hd)
        · exact hmin p hm

theorem foldl_nearStep_keep_zero (lat lng : ℚ) :
    ∀ (ports : List SpanishPort) (a : NearAcc), a.distance = 0 →
      ports.foldl (nearStep lat lng) (some a) = some a := by
  intro ports
  induction ports with
  | nil => intro a _; rfl
  | cons p ps ih =>
    intro a ha
    have hdneg : ¬ (euclidDeg lat lng p.lat p.lng < a.distance) := by
      rw [ha]
      exact not_lt.mpr (euclidDeg_nonneg lat lng p.lat p.lng)
    have hns : nearStep lat lng (some a) p = some a := by
      simp only [nearStep]
      rw [if_neg hdneg]
    rw [List.foldl_cons, hns]
    exact ih a ha

theorem nearestFold_exact (lat lng : ℚ) (ports : List SpanishPort) (p : SpanishPort)
    (hp : p ∈ ports) (hla : p.lat = lat) (hlng : p.lng = lng) :
    ∃ r, nearestFold lat lng ports = some r ∧ r.distance = 0 ∧
      euclidDeg lat lng r.lat r.lng = 0 := by
  cases ports with
  | nil => exact absurd hp (List.not_mem_nil p)
  | cons q qs =>
    obtain ⟨r, hfold, hinv, hle, hmin⟩ := foldl_nearStep_strong lat lng qs
      ⟨q.name, q.lat, q.lng, euclidDeg lat lng q.lat q.lng⟩ rfl
    have hr : nearestFold lat lng (q :: qs) = some r := by
      show (q :: qs).foldl (nearStep lat lng) none = some r
      rw [List.foldl_cons]
      exact hfold
    have hpz : euclidDeg lat lng p.lat p.lng = 0 := by
      rw [hla, hlng]
      exact euclidDeg_self lat lng
    have hub : r.distance ≤ 0 := by
      rcases List.mem_cons.mp hp with he | hm
      · have h1 : r.distance ≤ euclidDeg lat lng q.lat q.lng := hle
        rw [← he, hpz] at h1
        exact h1
      · have h1 := hmin p hm
        rw [hpz] at h1
        exact h1
    have hlb : 0 ≤ r.distance := by
      rw [hinv]
      exact euclidDeg_nonneg lat lng r.lat r.lng
    have hz : r.distance = 0 := le_antisymm hub hlb
    refine ⟨r, hr, hz, ?_⟩
    rw [← hinv]
    exact hz

/-- C7 (amended). The resolver applies its phases in priority order: exact
lookup of the lowercased-and-trimmed hint against the catalog keys (no
diacritic folding), then substring containment either way in catalog
order, then the nearest catalog station by plain Euclidean distance on
raw degree coordinates (not a great-circle formula); a query point exactly
at a cataloged station's coordinates resolves by distance to a station at
distance exactly 0. -/
theorem C7_station_resolution (lat lng : ℚ) (nm : String) :
    (∀ port, nm ≠ "" →
      List.lookup (normalizeName nm) SPANISH_PORT_MAPPING = some port →
      findNearestSpanishPort lat lng (some nm) =
        some ⟨port.name, port.lat, port.lng, port.aemetId, none⟩) ∧
    (∀ kv, nm ≠ "" →
      List.lookup (normalizeName nm) SPANISH_PORT_MAPPING = none →
      SPANISH_PORT_MAPPING.find?
        (fun kv2 => strIncludes (normalizeName nm) kv2.1 ||
          strIncludes kv2.1 (normalizeName nm)) = some kv →
      findNearestSpanishPort lat lng (some nm) =
        some ⟨kv.2.name, kv.2.lat, kv.2.lng, kv.2.aemetId, none⟩) ∧
    (∀ p, p ∈ SPANISH_PORT_MAPPING.map Prod.snd → p.lat = lat → p.lng = lng →
      ∃ r, findNearestSpanishPort lat lng none = some r ∧
        r.distance = some 0 ∧ euclidDeg lat lng r.lat r.lng = 0) := by
  refine ⟨?_, ?_, ?_⟩
  · intro port hnm hlk
    rw [findNearest_some, if_neg hnm, hlk]
  · intro kv hnm hlk hfind
    rw [findNearest_some, if_neg hnm, hlk, hfind]
  · intro p hp hla hlng
    obtain ⟨r, hr, hrd, hre⟩ := nearestFold_exact lat lng
      (SPANISH_PORT_MAPPING.map Prod.snd) p hp hla hlng
    refine ⟨⟨r.name, r.lat, r.lng, none, some r.distance⟩, ?_, ?_, ?_⟩
    · rw [findNearest_none, hr]
      rfl
    · exact congrArg some hrd
    · exact hre

theorem C7_witness :
    findNearestSpanishPort 0 0 (some "Vigo") =
      some ⟨"Vigo", 422406/10000, -87206/10000, some "36057", none⟩ ∧
    (∃ r, findNearestSpanishPort (433623/10000) (-84115/10000) none = some r ∧
      r.distance = some 0 ∧
      euclidDeg (433623/10000) (-84115/10000) r.lat r.lng = 0) := by
  constructor
  · exact (C7_station_resolution 0 0 "Vigo").1
      ⟨"Vigo", 422406/10000, -87206/10000, some "36057"⟩ (by decide) rfl
  · exact (C7_station_resolution (433623/10000) (-84115/10000) "x").2.2
      ⟨"A Coruña", 433623/10000, -84115/10000, none⟩
      (List.Mem.tail _ (List.Mem.head _)) rfl rfl

/-- Spec-side diacritic folding over the catalog's alphabet, following the
spec's words about case/diacritic-insensitive matching; the source
resolver only lowercases and trims, so names differing in a diacritic
slip through to the distance fallback. -/
def diacriticFoldChar (c : Char) : Char :=
  if c = 'á' then 'a'
  else if c = 'é' then 'e'
  else if c = 'í' then 'i'
  else if c = 'ó' then 'o'
  else if c = 'ú' then 'u'
  else if c = 'ü' then 'u'
  else if c = 'ñ' then 'n'
  else c

/-- Spec-side diacritic folding of a whole string. -/
def diacriticFold (s : String) : String :=
  ⟨s.data.map diacriticFoldChar⟩

theorem nearestFold_catalog_vigo :
    nearestFold (422406/10000) (-87206/10000) (SPANISH_PORT_MAPPING.map Prod.snd) =
      some ⟨"Vigo", 422406/10000, -87206/10000,
        euclidDeg (422406/10000) (-87206/10000) (422406/10000) (-87206/10000)⟩ := by
  have hz : euclidDeg (422406/10000 : ℚ) (-87206/10000 : ℚ)
      ((422406/10000 : ℚ)) ((-87206/10000 : ℚ)) = 0 := euclidDeg_self _ _
  have hstep : nearestFold (422406/10000) (-87206/10000)
      (SPANISH_PORT_MAPPING.map Prod.snd) =
      ((SPANISH_PORT_MAPPING.map Prod.snd).drop 1).foldl
        (nearStep (422406/10000) (-87206/10000))
        (some ⟨"Vigo", 422406/10000, -87206/10000,
          euclidDeg (422406/10000) (-87206/10000) (422406/10000) (-87206/10000)⟩) := rfl
  rw [hstep]
  exact foldl_nearStep_keep_zero _ _ _ _ hz

/-- Counterexample to the claimed diacritic-insensitive matching: the
hints "coruna" and "coruña" are identical after the spec's diacritic
folding, yet the resolver misses both name phases for "coruna" (its
normalization only lowercases and trims) and falls through to the
distance scan, returning Vigo for a query at Vigo's coordinates instead
of A Coruña, while the exact spelling "coruña" finds A Coruña. -/
theorem C7_counterexample :
    diacriticFold (normalizeName "coruna") = diacriticFold (normalizeName "coruña") ∧
    (∃ r, findNearestSpanishPort (422406/10000) (-87206/10000) (some "coruna") =
        some r ∧ r.name = "Vigo" ∧ r.name ≠ "A Coruña") ∧
    findNearestSpanishPort (433623/10000) (-84115/10000) (some "coruña") =
      some ⟨"A Coruña", 433623/10000, -84115/10000, none, none⟩ := by
  have hlk : List.lookup (normalizeName "coruna") SPANISH_PORT_MAPPING =
      (none : Option SpanishPort) := rfl
  have hfind : SPANISH_PORT_MAPPING.find?
      (fun kv => strIncludes (normalizeName "coruna") kv.1 ||
        strIncludes kv.1 (normalizeName "coruna")) =
      (none : Option (String × SpanishPort)) := rfl
  refine ⟨rfl, ?_, rfl⟩
  refine ⟨⟨"Vigo", 422406/10000, -87206/10000, none,
    some (euclidDeg (422406/10000) (-87206/10000) (422406/10000) (-87206/10000))⟩,
    ?_, rfl, by decide⟩
  rw [findNearest_some, if_neg (by decide), hlk, hfind]
  show (nearestFold (422406/10000) (-87206/10000) (SPANISH_PORT_MAPPING.map Prod.snd)).map
    (fun a => (⟨a.name, a.lat, a.lng, none, some a.distance⟩ : PortResult)) = _
  rw [nearestFold_catalog_vigo]
  rfl

/-! Proof infrastructure for the geocoding fallback. -/

theorem parseSignedNum_95 :
    parseSignedNum ['9', '5', ',', ' ', '1', '0'] = some (95, [',', ' ', '1', '0']) := by
  simp +decide [parseSignedNum, digitsToNat]

theorem parseSignedNum_10 : parseSignedNum ['1', '0'] = some (10, []) := by
  simp +decide [parseSignedNum, digitsToNat]

theorem parseCoords_95_10 : parseCoords "95, 10" = some (95, 10) := by
  have hdata : "95, 10".data = ['9', '5', ',', ' ', '1', '0'] := rfl
  simp +decide [parseCoords, hdata, parseSignedNum_95, parseSignedNum_10, jsIsSpace]

/-- C9 (amended). A failing forward geocode is non-fatal, and an
out-of-range literal coordinate pair makes geocodeLocation itself return
none; but the orchestrator only falls back to the hard-coded default
location when the query is not a literal coordinate pair at all: a
coordinate-pair query that failed geocoding (including the out-of-range
case) is re-parsed without any range validation and the run continues on
the invalid coordinates rather than the default. -/
theorem C9_geocode_fallback (env : Env) (q : String) :
    (∀ lat lng, parseCoords q = some (lat, lng) →
      (lat < -90 ∨ 90 < lat ∨ lng < -180 ∨ 180 < lng) →
      geocodeLocation env q = none) ∧
    (parseCoords q = none → env.searchResult = none →
      resolveGeo env q =
        ⟨422406/10000, -87206/10000, if q = "" then "Vigo" else q⟩ ∧
      (fetchTideData env q).requestedCoordinates = (422406/10000, -87206/10000)) ∧
    (∀ lat lng, geocodeLocation env q = none → parseCoords q = some (lat, lng) →
      resolveGeo env q = ⟨lat, lng, q⟩ ∧
      (fetchTideData env q).requestedCoordinates = (lat, lng)) := by
  refine ⟨?_, ?_, ?_⟩
  · intro lat lng hpc hrange
    simp only [geocodeLocation, hpc]
    rw [if_pos hrange]
  · intro hpc hsr
    have hg : geocodeLocation env q = none := by
      simp only [geocodeLocation, hpc]
      exact hsr
    have hres : resolveGeo env q =
        ⟨422406/10000, -87206/10000, if q = "" then "Vigo" else q⟩ := by
      simp only [resolveGeo, hg, hpc]
    refine ⟨hres, ?_⟩
    obtain ⟨l, hl, hne, hfd, htr⟩ := fetchTideData_eq env q
    rw [hfd, assembleSnapshot_requestedCoordinates, hres]
  · intro lat lng hg hpc
    have hres : resolveGeo env q = ⟨lat, lng, q⟩ := by
      simp only [resolveGeo, hg, hpc]
    refine ⟨hres, ?_⟩
    obtain ⟨l, hl, hne, hfd, htr⟩ := fetchTideData_eq env q
    rw [hfd, assembleSnapshot_requestedCoordinates, hres]

theorem C9_witness :
    geocodeLocation envFail "95, 10" = none ∧
    (resolveGeo envFail "x" = ⟨422406/10000, -87206/10000, "x"⟩ ∧
      (fetchTideData envFail "x").requestedCoordinates =
        (422406/10000, -87206/10000)) ∧
    (resolveGeo envFail "95, 10" = ⟨95, 10, "95, 10"⟩ ∧
      (fetchTideData envFail "95, 10").requestedCoordinates = (95, 10)) := by
  have hg := (C9_geocode_fallback envFail "95, 10").1 95 10 parseCoords_95_10
    (by norm_num)
  refine ⟨hg, (C9_geocode_fallback envFail "x").2.1 rfl rfl,
    (C9_geocode_fallback envFail "95, 10").2.2 95 10 hg parseCoords_95_10⟩

/-- Counterexample to the claimed degradation to the default location:
the out-of-range coordinate query "95, 10" fails geocoding as claimed,
but the orchestrator then continues on the invalid coordinates (95, 10)
themselves, which are not the hard-coded default location. -/
theorem C9_counterexample :
    geocodeLocation envFail "95, 10" = none ∧
    resolveGeo envFail "95, 10" = ⟨95, 10, "95, 10"⟩ ∧
    (fetchTideData envFail "95, 10").requestedCoordinates = (95, 10) ∧
    ((95 : ℚ), (10 : ℚ)) ≠ ((422406/10000 : ℚ), (-87206/10000 : ℚ)) := by
  have hg : geocodeLocation envFail "95, 10" = none := by
    simp only [geocodeLocation, parseCoords_95_10]
    rw [if_pos (by norm_num)]
  have hres : resolveGeo envFail "95, 10" = ⟨95, 10, "95, 10"⟩ := by
    simp only [resolveGeo, hg, parseCoords_95_10]
  refine ⟨hg, hres, ?_, ?_⟩
  · obtain ⟨l, hl, hne, hfd, htr⟩ := fetchTideData_eq envFail "95, 10"
    rw [hfd, assembleSnapshot_requestedCoordinates, hres]
  · intro hcon
    have h1 : (95 : ℚ) = 422406/10000 := congrArg Prod.fst hcon
    norm_num at h1

end MareaCast
